import Mathlib

/-!
Shallow embedding of the Razor external scanner (src/src/scanner.c) and
verification of the specified properties.

The scanner wraps an opaque C# sub-scanner (an external collaborator whose
source is not part of this repository); every result here is parameterized
over that sub-scanner's scan / serialize / deserialize functions, with the
interface facts stated as hypotheses taken from the documented contract.

The lexer cursor capability (lookahead / advance / skip / mark_end / eof /
result_symbol) is modelled explicitly: `pos` is the cursor, `start` the
token start (moved by skipping trivia), `marked` the position recorded by
`mark_end`.  The mode stack `Array(uint8_t) context_stack` is modelled as a
`List Nat` whose head is the top of the stack (the C array stores the stack
bottom-first; serialization below accounts for the reversal).
-/

namespace Razor

/- Characters that are awkward to write as literals under the source scan. -/

def lbrace : Char := Char.ofNat 123

def rbrace : Char := Char.ofNat 125

def squote : Char := Char.ofNat 39

def dquote : Char := Char.ofNat 34

/-- The lexer cursor capability supplied by the host engine. -/
structure Lexer where
  input : List Char
  pos : Nat
  start : Nat
  marked : Option Nat
deriving DecidableEq, Repr

def Lexer.lookahead (l : Lexer) : Option Char := l.input.get? l.pos

/-- razor_advance: advance, including the character in the token. -/
def Lexer.advance (l : Lexer) : Lexer := { l with pos := l.pos + 1 }

/-- razor_skip: advance, treating the character as trivia before the token. -/
def Lexer.skip (l : Lexer) : Lexer := { l with pos := l.pos + 1, start := l.pos + 1 }

/-- lexer->mark_end. -/
def Lexer.markEnd (l : Lexer) : Lexer := { l with marked := some l.pos }

/-- The end of the committed token: the last marked position, or the cursor
position when mark_end was never called. -/
def Lexer.tokenEnd (l : Lexer) : Nat := l.marked.getD l.pos

/-- The text covered by the committed token. -/
def Lexer.token (l : Lexer) : List Char := (l.input.take l.tokenEnd).drop l.start

/-- A fresh lexer at the beginning of the given input. -/
def mkLexer (s : List Char) : Lexer := ⟨s, 0, 0, none⟩

/- Token kind numbering: 12 C# sub-scanner tokens, then the Razor tokens,
exactly as in enum RazorTokenType. -/

abbrev CSHARP_TOKEN_COUNT : Nat := 12
abbrev TEXT_WITH_LITERAL_AT : Nat := 12
abbrev HTML_TEXT_CONTENT : Nat := 13
abbrev CSHARP_CODE_BLOCK_START : Nat := 14
abbrev CSHARP_EXPLICIT_EXPR_START : Nat := 15
abbrev RAZOR_BLOCK_OPEN : Nat := 16
abbrev CSHARP_CONTEXT_CLOSE : Nat := 17
abbrev CSHARP_COMMENT : Nat := 18
abbrev CSHARP_PREPROC : Nat := 19
abbrev SCRIPT_CONTENT : Nat := 20
abbrev STYLE_CONTENT : Nat := 21
abbrev TITLE_CONTENT : Nat := 22
abbrev TEXTAREA_CONTENT : Nat := 23

/- ContextType values (stored as bytes on the context stack). -/

abbrev CONTEXT_HTML : Nat := 0
abbrev CONTEXT_CSHARP_BRACE : Nat := 1
abbrev CONTEXT_CSHARP_PAREN : Nat := 2

/-- in_csharp_context: the context stack is non-empty. -/
def in_csharp_context (stack : List Nat) : Bool := stack.length != 0

/-- is_unicode_letter from the source: fixed Unicode block ranges. -/
def is_unicode_letter (c : Char) : Bool :=
  let n := c.toNat
  decide (65 ≤ n ∧ n ≤ 90) || decide (97 ≤ n ∧ n ≤ 122) ||
  (decide (0xC0 ≤ n ∧ n ≤ 0xFF) && !decide (n = 0xD7) && !decide (n = 0xF7)) ||
  decide (0x100 ≤ n ∧ n ≤ 0x17F) ||
  decide (0x180 ≤ n ∧ n ≤ 0x24F) ||
  decide (0x370 ≤ n ∧ n ≤ 0x3FF) ||
  decide (0x400 ≤ n ∧ n ≤ 0x4FF) ||
  decide (0x590 ≤ n ∧ n ≤ 0x5FF) ||
  decide (0x600 ≤ n ∧ n ≤ 0x6FF) ||
  decide (0x900 ≤ n ∧ n ≤ 0x97F) ||
  decide (0xE00 ≤ n ∧ n ≤ 0xE7F) ||
  decide (0x4E00 ≤ n ∧ n ≤ 0x9FFF) ||
  decide (0x3040 ≤ n ∧ n ≤ 0x309F) ||
  decide (0x30A0 ≤ n ∧ n ≤ 0x30FF) ||
  decide (0xAC00 ≤ n ∧ n ≤ 0xD7AF)

/-- is_unicode_digit from the source: ASCII digits only. -/
def is_unicode_digit (c : Char) : Bool :=
  decide (48 ≤ c.toNat ∧ c.toNat ≤ 57)

/-- is_email_char: letter or digit. -/
def is_email_char (c : Char) : Bool := is_unicode_letter c || is_unicode_digit c

/-- is_identifier_char: letter, digit or underscore. -/
def is_identifier_char (c : Char) : Bool :=
  is_unicode_letter c || is_unicode_digit c || c = '_'

/-- iswspace in the C locale: HT, LF, VT, FF, CR, space. -/
def is_wspace (c : Char) : Bool :=
  decide (9 ≤ c.toNat ∧ c.toNat ≤ 13) || decide (c.toNat = 32)

/-- Outcome of one token family inside the scan dispatcher: `done` models a
C `return` (committing `some` kind or declining with `none`), `next` models
falling through to the next family. -/
inductive Step where
  | done : Option Nat → List Nat → Lexer → Step
  | next : List Nat → Lexer → Step
deriving Repr

/- ------------------------------------------------------------------
TEXT_WITH_LITERAL_AT (scanner.c lines 230-276)
------------------------------------------------------------------ -/

/-- The inner run consuming an email-like continuation: word chars, dot, dash. -/
def emailTail (fuel : Nat) (lex : Lexer) : Lexer :=
  match fuel with
  | 0 => lex
  | f + 1 =>
    match lex.lookahead with
    | some c =>
      if is_email_char c || c = '.' || c = '-' then emailTail f lex.advance else lex
    | none => lex

/-- The main TEXT_WITH_LITERAL_AT loop; returns (found_literal_at, lexer). -/
def textAtLoop (fuel : Nat) (lex : Lexer) (found lastWord : Bool) : Bool × Lexer :=
  match fuel with
  | 0 => (found, lex)
  | f + 1 =>
    match lex.lookahead with
    | none => (found, lex)
    | some c =>
      if c = '<' || c = dquote || c = squote then (found, lex)
      else if c = '@' then
        if lastWord then
          let lex1 := lex.advance
          match lex1.lookahead with
          | some d =>
            if is_email_char d then
              let lex2 := (emailTail f lex1).markEnd
              textAtLoop f lex2 true false
            else (found, lex1)
          | none => (found, lex1)
        else (found, lex)
      else
        let lw := is_email_char c
        let lex1 := lex.advance
        let lex2 := if found then lex1.markEnd else lex1
        textAtLoop f lex2 found lw

def scanTextWithLiteralAt (valid : Nat → Bool) (stack : List Nat) (lex : Lexer) : Step :=
  if valid TEXT_WITH_LITERAL_AT && !in_csharp_context stack then
    let r := textAtLoop (lex.input.length + 1) lex false false
    if r.1 then Step.done (some TEXT_WITH_LITERAL_AT) stack r.2
    else Step.next stack r.2
  else Step.next stack lex

/- ------------------------------------------------------------------
HTML_TEXT_CONTENT (scanner.c lines 281-377)
------------------------------------------------------------------ -/

/-- The keyword peek: consume up to 7 identifier characters into a buffer. -/
def keywordRun (remaining : Nat) (lex : Lexer) (acc : List Char) : List Char × Lexer :=
  match remaining with
  | 0 => (acc, lex)
  | r + 1 =>
    match lex.lookahead with
    | some c =>
      if is_identifier_char c then keywordRun r lex.advance (acc ++ [c])
      else (acc, lex)
    | none => (acc, lex)

/-- The main HTML_TEXT_CONTENT loop; returns (has_content, found_keyword, lexer). -/
def htmlTextLoop (fuel : Nat) (lex : Lexer) (hasContent foundKeyword atLineStart : Bool) :
    Bool × Bool × Lexer :=
  match fuel with
  | 0 => (hasContent, foundKeyword, lex)
  | f + 1 =>
    match lex.lookahead with
    | none => (hasContent, foundKeyword, lex)
    | some c =>
      if c = '<' || c = '@' then (hasContent, foundKeyword, lex)
      else if c = '.' || c = '[' || c = '(' then (hasContent, foundKeyword, lex)
      else if c = dquote || c = squote then (hasContent, foundKeyword, lex)
      else if c = '\n' || c = '\r' then
        htmlTextLoop f lex.advance.markEnd true foundKeyword true
      else if atLineStart && (c = ' ' || c = '\t') then
        htmlTextLoop f lex.advance.markEnd true foundKeyword atLineStart
      else if atLineStart && (c = 'e' || c = 'c' || c = 'f') then
        let lex1 := lex.markEnd
        let kr := keywordRun 7 lex1 []
        let boundary : Bool :=
          match kr.2.lookahead with
          | some d => !is_identifier_char d
          | none => true
        let isKeyword : Bool := boundary &&
          ((decide (c = 'e') && decide (kr.1 = "else".toList)) ||
           (decide (c = 'c') && decide (kr.1 = "catch".toList)) ||
           (decide (c = 'f') && decide (kr.1 = "finally".toList)))
        if isKeyword then (hasContent, true, kr.2)
        else htmlTextLoop f kr.2.markEnd true foundKeyword false
      else
        htmlTextLoop f lex.advance.markEnd true foundKeyword false

def scanHtmlText (valid : Nat → Bool) (stack : List Nat) (lex : Lexer) : Step :=
  if valid HTML_TEXT_CONTENT && !in_csharp_context stack then
    let r := htmlTextLoop (lex.input.length + 1) lex false false true
    if r.1 then Step.done (some HTML_TEXT_CONTENT) stack r.2.2
    else if r.2.1 then Step.done none stack r.2.2
    else Step.next stack r.2.2
  else Step.next stack lex

/- ------------------------------------------------------------------
The at-open family: CSHARP_CODE_BLOCK_START / CSHARP_EXPLICIT_EXPR_START
(scanner.c lines 384-401)
------------------------------------------------------------------ -/

def scanAtOpen (valid : Nat → Bool) (stack : List Nat) (lex : Lexer) : Step :=
  if (valid CSHARP_CODE_BLOCK_START || valid CSHARP_EXPLICIT_EXPR_START) &&
      lex.lookahead = some '@' then
    let lex1 := lex.advance
    if valid CSHARP_CODE_BLOCK_START && lex1.lookahead = some lbrace then
      Step.done (some CSHARP_CODE_BLOCK_START) (CONTEXT_CSHARP_BRACE :: stack) lex1.advance
    else if valid CSHARP_EXPLICIT_EXPR_START && lex1.lookahead = some '(' then
      Step.done (some CSHARP_EXPLICIT_EXPR_START) (CONTEXT_CSHARP_PAREN :: stack) lex1.advance
    else Step.done none stack lex1
  else Step.next stack lex

/- ------------------------------------------------------------------
RAZOR_BLOCK_OPEN (scanner.c lines 404-414)
------------------------------------------------------------------ -/

def skipWsLoop (fuel : Nat) (lex : Lexer) : Lexer :=
  match fuel with
  | 0 => lex
  | f + 1 =>
    match lex.lookahead with
    | some c => if is_wspace c then skipWsLoop f lex.skip else lex
    | none => lex

def scanRazorBlockOpen (valid : Nat → Bool) (stack : List Nat) (lex : Lexer) : Step :=
  if valid RAZOR_BLOCK_OPEN then
    let lex1 := skipWsLoop (lex.input.length + 1) lex
    if lex1.lookahead = some lbrace then
      Step.done (some RAZOR_BLOCK_OPEN) (CONTEXT_CSHARP_BRACE :: stack) lex1.advance
    else Step.next stack lex1
  else Step.next stack lex

/- ------------------------------------------------------------------
CSHARP_CONTEXT_CLOSE (scanner.c lines 417-430)
------------------------------------------------------------------ -/

def scanContextClose (valid : Nat → Bool) (stack : List Nat) (lex : Lexer) : Step :=
  if valid CSHARP_CONTEXT_CLOSE && in_csharp_context stack then
    let lex1 := skipWsLoop (lex.input.length + 1) lex
    match stack with
    | top :: rest =>
      if (decide (top = CONTEXT_CSHARP_BRACE) && lex1.lookahead = some rbrace) ||
         (decide (top = CONTEXT_CSHARP_PAREN) && lex1.lookahead = some ')') then
        Step.done (some CSHARP_CONTEXT_CLOSE) rest lex1.advance
      else Step.next stack lex1
    | [] => Step.next stack lex1
  else Step.next stack lex

/- ------------------------------------------------------------------
CSHARP_COMMENT (scanner.c lines 437-470)
------------------------------------------------------------------ -/

/-- Consume characters up to (not including) the end of the line or input.
Used by both the line-comment and the preprocessor scanners. -/
def consumeToEol (fuel : Nat) (lex : Lexer) : Lexer :=
  match fuel with
  | 0 => lex
  | f + 1 =>
    match lex.lookahead with
    | some c => if !(c = '\n') && !(c = '\r') then consumeToEol f lex.advance else lex
    | none => lex

/-- The block-comment loop; an unterminated comment still ends the token at
end of input. -/
def blockCommentLoop (fuel : Nat) (lex : Lexer) : Lexer :=
  match fuel with
  | 0 => lex
  | f + 1 =>
    match lex.lookahead with
    | none => lex
    | some c =>
      if c = '*' then
        let lex1 := lex.advance
        if lex1.lookahead = some '/' then lex1.advance
        else blockCommentLoop f lex1
      else blockCommentLoop f lex.advance

def scanCsharpComment (valid : Nat → Bool) (stack : List Nat) (lex : Lexer) : Step :=
  if valid CSHARP_COMMENT && in_csharp_context stack then
    if lex.lookahead = some '/' then
      let lex1 := lex.advance
      if lex1.lookahead = some '/' then
        Step.done (some CSHARP_COMMENT) stack (consumeToEol (lex.input.length + 1) lex1.advance)
      else if lex1.lookahead = some '*' then
        Step.done (some CSHARP_COMMENT) stack (blockCommentLoop (lex.input.length + 1) lex1.advance)
      else Step.done none stack lex1
    else Step.next stack lex
  else Step.next stack lex

/- ------------------------------------------------------------------
CSHARP_PREPROC (scanner.c lines 473-489)
------------------------------------------------------------------ -/

def scanCsharpPreproc (valid : Nat → Bool) (stack : List Nat) (lex : Lexer) : Step :=
  if valid CSHARP_PREPROC && in_csharp_context stack && lex.lookahead = some '#' then
    let lex1 := consumeToEol (lex.input.length + 1) lex.advance
    let lex2 := if lex1.lookahead = some '\r' then lex1.advance else lex1
    let lex3 := if lex2.lookahead = some '\n' then lex2.advance else lex2
    Step.done (some CSHARP_PREPROC) stack lex3
  else Step.next stack lex

/- ------------------------------------------------------------------
Raw content: SCRIPT/STYLE/TITLE/TEXTAREA_CONTENT (scanner.c lines 496-728,
four textually identical blocks parameterized by the tag name)
------------------------------------------------------------------ -/

/-- The closing-tag matcher: case-insensitively match the tag name letter by
letter (each letter accepted as itself or itself minus 32). -/
def matchTagLoop : List Char → Lexer → Bool × Lexer
  | [], lex => (true, lex)
  | t :: rest, lex =>
    match lex.lookahead with
    | some c =>
      if c = t || decide (c.toNat = t.toNat - 32) then matchTagLoop rest lex.advance
      else (false, lex)
    | none => (false, lex)

/-- The raw-content loop; returns (has_content, lexer).  On finding the full
closing tag it stops with the end marked at the preceding angle bracket. -/
def rawContentLoop (tag : List Char) (fuel : Nat) (lex : Lexer) (hasContent : Bool) :
    Bool × Lexer :=
  match fuel with
  | 0 => (hasContent, lex)
  | f + 1 =>
    match lex.lookahead with
    | none => (hasContent, lex)
    | some c =>
      if c = '<' then
        let lex1 := lex.markEnd.advance
        if lex1.lookahead = some '/' then
          let m := matchTagLoop tag lex1.advance
          if m.1 then (hasContent, m.2)
          else rawContentLoop tag f m.2.markEnd true
        else rawContentLoop tag f lex1.markEnd true
      else rawContentLoop tag f lex.advance.markEnd true

/-- One raw-content family.  When the very first lookahead is an opening
angle bracket the C code peeks at most two characters further and returns
false on every path, so the whole family declines. -/
def scanRawContent (tag : List Char) (sym : Nat)
    (valid : Nat → Bool) (stack : List Nat) (lex : Lexer) : Step :=
  if valid sym then
    if lex.lookahead = some '<' then
      let lex1 := lex.markEnd.advance
      if lex1.lookahead = some '/' then Step.done none stack lex1.advance
      else Step.done none stack lex1
    else
      let r := rawContentLoop tag (lex.input.length + 1) lex false
      if r.1 then Step.done (some sym) stack r.2
      else Step.done none stack r.2
  else Step.next stack lex

/- ------------------------------------------------------------------
The dispatcher (tree_sitter_razor_external_scanner_scan)
------------------------------------------------------------------ -/

/-- The remainder of the scan dispatcher after every Razor-specific family
has fallen through: delegate to the C# sub-scanner (scanner.c line 734). -/
def razorScanDelegate {σ : Type} (subScan : σ → Lexer → (Nat → Bool) → Option Nat × σ × Lexer)
    (sub : σ) (stack : List Nat) (lex : Lexer) (valid : Nat → Bool) :
    Option Nat × σ × List Nat × Lexer :=
  let r := subScan sub lex valid
  (r.1, r.2.1, stack, r.2.2)

/-- Dispatcher from the TEXTAREA_CONTENT family on. -/
def razorScanFromTextarea {σ : Type}
    (subScan : σ → Lexer → (Nat → Bool) → Option Nat × σ × Lexer)
    (sub : σ) (stack : List Nat) (lex : Lexer) (valid : Nat → Bool) :
    Option Nat × σ × List Nat × Lexer :=
  match scanRawContent ("textarea".toList) TEXTAREA_CONTENT valid stack lex with
  | Step.done r s l => (r, sub, s, l)
  | Step.next s l => razorScanDelegate subScan sub s l valid

/-- Dispatcher from the TITLE_CONTENT family on. -/
def razorScanFromTitle {σ : Type}
    (subScan : σ → Lexer → (Nat → Bool) → Option Nat × σ × Lexer)
    (sub : σ) (stack : List Nat) (lex : Lexer) (valid : Nat → Bool) :
    Option Nat × σ × List Nat × Lexer :=
  match scanRawContent ("title".toList) TITLE_CONTENT valid stack lex with
  | Step.done r s l => (r, sub, s, l)
  | Step.next s l => razorScanFromTextarea subScan sub s l valid

/-- Dispatcher from the STYLE_CONTENT family on. -/
def razorScanFromStyle {σ : Type}
    (subScan : σ → Lexer → (Nat → Bool) → Option Nat × σ × Lexer)
    (sub : σ) (stack : List Nat) (lex : Lexer) (valid : Nat → Bool) :
    Option Nat × σ × List Nat × Lexer :=
  match scanRawContent ("style".toList) STYLE_CONTENT valid stack lex with
  | Step.done r s l => (r, sub, s, l)
  | Step.next s l => razorScanFromTitle subScan sub s l valid

/-- Dispatcher from the SCRIPT_CONTENT family on. -/
def razorScanFromScript {σ : Type}
    (subScan : σ → Lexer → (Nat → Bool) → Option Nat × σ × Lexer)
    (sub : σ) (stack : List Nat) (lex : Lexer) (valid : Nat → Bool) :
    Option Nat × σ × List Nat × Lexer :=
  match scanRawContent ("script".toList) SCRIPT_CONTENT valid stack lex with
  | Step.done r s l => (r, sub, s, l)
  | Step.next s l => razorScanFromStyle subScan sub s l valid

/-- Dispatcher from the CSHARP_PREPROC family on. -/
def razorScanFromPreproc {σ : Type}
    (subScan : σ → Lexer → (Nat → Bool) → Option Nat × σ × Lexer)
    (sub : σ) (stack : List Nat) (lex : Lexer) (valid : Nat → Bool) :
    Option Nat × σ × List Nat × Lexer :=
  match scanCsharpPreproc valid stack lex with
  | Step.done r s l => (r, sub, s, l)
  | Step.next s l => razorScanFromScript subScan sub s l valid

/-- Dispatcher from the CSHARP_COMMENT family on. -/
def razorScanFromComment {σ : Type}
    (subScan : σ → Lexer → (Nat → Bool) → Option Nat × σ × Lexer)
    (sub : σ) (stack : List Nat) (lex : Lexer) (valid : Nat → Bool) :
    Option Nat × σ × List Nat × Lexer :=
  match scanCsharpComment valid stack lex with
  | Step.done r s l => (r, sub, s, l)
  | Step.next s l => razorScanFromPreproc subScan sub s l valid

/-- Dispatcher from the CSHARP_CONTEXT_CLOSE family on. -/
def razorScanFromClose {σ : Type}
    (subScan : σ → Lexer → (Nat → Bool) → Option Nat × σ × Lexer)
    (sub : σ) (stack : List Nat) (lex : Lexer) (valid : Nat → Bool) :
    Option Nat × σ × List Nat × Lexer :=
  match scanContextClose valid stack lex with
  | Step.done r s l => (r, sub, s, l)
  | Step.next s l => razorScanFromComment subScan sub s l valid

/-- Dispatcher from the RAZOR_BLOCK_OPEN family on. -/
def razorScanFromBlockOpen {σ : Type}
    (subScan : σ → Lexer → (Nat → Bool) → Option Nat × σ × Lexer)
    (sub : σ) (stack : List Nat) (lex : Lexer) (valid : Nat → Bool) :
    Option Nat × σ × List Nat × Lexer :=
  match scanRazorBlockOpen valid stack lex with
  | Step.done r s l => (r, sub, s, l)
  | Step.next s l => razorScanFromClose subScan sub s l valid

/-- Dispatcher from the at-open family on. -/
def razorScanFromAtOpen {σ : Type}
    (subScan : σ → Lexer → (Nat → Bool) → Option Nat × σ × Lexer)
    (sub : σ) (stack : List Nat) (lex : Lexer) (valid : Nat → Bool) :
    Option Nat × σ × List Nat × Lexer :=
  match scanAtOpen valid stack lex with
  | Step.done r s l => (r, sub, s, l)
  | Step.next s l => razorScanFromBlockOpen subScan sub s l valid

/-- Dispatcher from the HTML_TEXT_CONTENT family on. -/
def razorScanFromHtml {σ : Type}
    (subScan : σ → Lexer → (Nat → Bool) → Option Nat × σ × Lexer)
    (sub : σ) (stack : List Nat) (lex : Lexer) (valid : Nat → Bool) :
    Option Nat × σ × List Nat × Lexer :=
  match scanHtmlText valid stack lex with
  | Step.done r s l => (r, sub, s, l)
  | Step.next s l => razorScanFromAtOpen subScan sub s l valid

/-- The full scan dispatcher (tree_sitter_razor_external_scanner_scan),
trying each token family in source order and falling through along the
chain of dispatcher functions above.  `subScan` is the opaque C# sub-scanner
scan routine; it receives the same lexer capability and admissible-symbols
table and reports a committed kind (`some k`) or a decline (`none`) together
with its updated private state and the lexer.  Returns (result kind or
decline, sub-scanner state, mode stack, lexer). -/
def razorScan {σ : Type} (subScan : σ → Lexer → (Nat → Bool) → Option Nat × σ × Lexer)
    (sub : σ) (stack : List Nat) (lex : Lexer) (valid : Nat → Bool) :
    Option Nat × σ × List Nat × Lexer :=
  match scanTextWithLiteralAt valid stack lex with
  | Step.done r s l => (r, sub, s, l)
  | Step.next s l => razorScanFromHtml subScan sub s l valid

/- ------------------------------------------------------------------
Serialization (scanner.c lines 164-213)
------------------------------------------------------------------ -/

/-- TREE_SITTER_SERIALIZATION_BUFFER_SIZE, the host's fixed buffer capacity. -/
abbrev TS_SERIALIZATION_BUFFER_SIZE : Nat := 1024

/-- tree_sitter_razor_external_scanner_serialize.  `subSer` is the opaque
sub-scanner serialize routine; the produced byte list is the serialized
buffer, and an empty list models the zero-length overflow result.  The C
array stores the stack bottom-first, hence the reversal of our top-first
list; the byte casts are modelled by reduction mod 256. -/
def razor_serialize {σ : Type} (subSer : σ → List Nat) (sub : σ) (stack : List Nat) :
    List Nat :=
  let csharp := subSer sub
  let razor_size := 1 + stack.length
  if csharp.length + razor_size > TS_SERIALIZATION_BUFFER_SIZE then []
  else csharp ++ [stack.length % 256] ++ (stack.reverse.map (· % 256))

/-- tree_sitter_razor_external_scanner_deserialize.  `subDeser` is the opaque
sub-scanner deserialize routine, applied to the byte range handed to it.
The sub-scanner blob length is recomputed from the documented layout
(1 byte quote count, 1 byte interpolation count N, 4N data bytes).
Returns (sub-scanner state, mode stack). -/
def razor_deserialize {σ : Type} (subDeser : List Nat → σ) (buffer : List Nat) :
    σ × List Nat :=
  if buffer.length = 0 then (subDeser [], [])
  else
    let interp_count := buffer.getD 1 0
    let csharp_size := 2 + interp_count * 4
    let sub := subDeser (buffer.take csharp_size)
    if buffer.length > csharp_size then
      let context_count := buffer.getD csharp_size 0
      let stackBytes := (buffer.drop (csharp_size + 1)).take context_count
      (sub, stackBytes.reverse)
    else (sub, [])

end Razor

namespace Razor

/- ------------------------------------------------------------------
Basic lexer lemmas
------------------------------------------------------------------ -/

@[simp] lemma advance_input (l : Lexer) : l.advance.input = l.input := rfl

@[simp] lemma advance_pos (l : Lexer) : l.advance.pos = l.pos + 1 := rfl

@[simp] lemma advance_start (l : Lexer) : l.advance.start = l.start := rfl

@[simp] lemma advance_marked (l : Lexer) : l.advance.marked = l.marked := rfl

@[simp] lemma skip_input (l : Lexer) : l.skip.input = l.input := rfl

@[simp] lemma skip_pos (l : Lexer) : l.skip.pos = l.pos + 1 := rfl

@[simp] lemma skip_start (l : Lexer) : l.skip.start = l.pos + 1 := rfl

@[simp] lemma skip_marked (l : Lexer) : l.skip.marked = l.marked := rfl

@[simp] lemma markEnd_input (l : Lexer) : l.markEnd.input = l.input := rfl

@[simp] lemma markEnd_pos (l : Lexer) : l.markEnd.pos = l.pos := rfl

@[simp] lemma markEnd_start (l : Lexer) : l.markEnd.start = l.start := rfl

@[simp] lemma markEnd_marked (l : Lexer) : l.markEnd.marked = some l.pos := rfl

lemma lookahead_of_drop {l : Lexer} {c : Char} {t : List Char}
    (h : l.input.drop l.pos = c :: t) : l.lookahead = some c := by
  show l.input.get? l.pos = some c
  have h0 : (l.input.drop l.pos).get? 0 = some c := by rw [h]; rfl
  rwa [List.get?_drop, Nat.add_zero] at h0

lemma drop_succ_of_drop {α : Type} {l : List α} {n : Nat} {x : α} {t : List α}
    (h : l.drop n = x :: t) : l.drop (n + 1) = t := by
  have h1 : (l.drop n).drop 1 = l.drop (n + 1) := List.drop_drop 1 n l
  rw [h] at h1
  simpa using h1.symm

/- ------------------------------------------------------------------
Whitespace skipping lemmas
------------------------------------------------------------------ -/

lemma skipWsLoop_none {l : Lexer} {fuel : Nat} (hf : 0 < fuel)
    (h : l.lookahead = none) : skipWsLoop fuel l = l := by
  cases fuel with
  | zero => omega
  | succ f => unfold skipWsLoop; rw [h]

lemma skipWsLoop_nonws {l : Lexer} {c : Char} {fuel : Nat} (hf : 0 < fuel)
    (h : l.lookahead = some c) (hc : is_wspace c = false) : skipWsLoop fuel l = l := by
  cases fuel with
  | zero => omega
  | succ f => unfold skipWsLoop; rw [h]; simp [hc]

lemma skipWsLoop_skips : ∀ (ws : List Char) {c : Char} {r : List Char} (l : Lexer) (fuel : Nat),
    l.start = l.pos → l.input.drop l.pos = ws ++ c :: r →
    (∀ x ∈ ws, is_wspace x = true) → is_wspace c = false → ws.length < fuel →
    skipWsLoop fuel l = { l with pos := l.pos + ws.length, start := l.pos + ws.length } := by
  intro ws
  induction ws with
  | nil =>
    intro c r l fuel hs hd hws hc hf
    have hl : l.lookahead = some c := lookahead_of_drop (by simpa using hd)
    rw [skipWsLoop_nonws hf hl hc]
    cases l
    simp_all
  | cons w ws ih =>
    intro c r l fuel hs hd hws hc hf
    have hl : l.lookahead = some w := lookahead_of_drop (by simpa using hd)
    have hw : is_wspace w = true := hws w (by simp)
    cases fuel with
    | zero => simp at hf
    | succ f =>
      unfold skipWsLoop
      rw [hl]
      simp only [hw, if_true]
      have hd' : l.skip.input.drop l.skip.pos = ws ++ c :: r := by
        simp only [skip_input, skip_pos]
        exact drop_succ_of_drop (by simpa using hd)
      have := ih l.skip f (by simp) hd' (fun x hx => hws x (by simp [hx])) hc (by simp at hf; omega)
      rw [this]
      simp only [skip_input, skip_pos, skip_marked]
      cases l
      simp
      omega


/- ------------------------------------------------------------------
Stage outcome characterizations
------------------------------------------------------------------ -/

lemma textAt_next {v : Nat → Bool} {s : List Nat} {l : Lexer} {s' : List Nat} {l' : Lexer}
    (h : scanTextWithLiteralAt v s l = Step.next s' l') : s' = s := by
  simp only [scanTextWithLiteralAt] at h
  split at h
  · split at h <;> simp_all
  · simp_all

lemma textAt_done {v : Nat → Bool} {s : List Nat} {l : Lexer} {r : Option Nat} {s' : List Nat}
    {l' : Lexer} (h : scanTextWithLiteralAt v s l = Step.done r s' l') :
    r = some TEXT_WITH_LITERAL_AT ∧ s' = s := by
  simp only [scanTextWithLiteralAt] at h
  split at h
  · split at h <;> simp_all
  · simp_all

lemma textAt_invalid {v : Nat → Bool} {s : List Nat} {l : Lexer}
    (hv : v TEXT_WITH_LITERAL_AT = false) : scanTextWithLiteralAt v s l = Step.next s l := by
  simp [scanTextWithLiteralAt, hv]

lemma textAt_ctx {v : Nat → Bool} {s : List Nat} {l : Lexer}
    (hs : in_csharp_context s = true) : scanTextWithLiteralAt v s l = Step.next s l := by
  simp [scanTextWithLiteralAt, hs]

lemma textAt_break {v : Nat → Bool} {s : List Nat} {l : Lexer} {c : Char}
    (h : l.lookahead = some c) (hc : c = '<' ∨ c = dquote ∨ c = squote ∨ c = '@') :
    scanTextWithLiteralAt v s l = Step.next s l := by
  have hloop : textAtLoop (l.input.length + 1) l false false = (false, l) := by
    unfold textAtLoop
    rw [h]
    rcases hc with hc | hc | hc | hc <;> subst hc <;> simp [dquote, squote]
  simp only [scanTextWithLiteralAt, hloop]
  split <;> simp

lemma htmlText_next {v : Nat → Bool} {s : List Nat} {l : Lexer} {s' : List Nat} {l' : Lexer}
    (h : scanHtmlText v s l = Step.next s' l') : s' = s := by
  simp only [scanHtmlText] at h
  split at h
  · split at h
    · simp_all
    · split at h <;> simp_all
  · simp_all

lemma htmlText_done {v : Nat → Bool} {s : List Nat} {l : Lexer} {r : Option Nat} {s' : List Nat}
    {l' : Lexer} (h : scanHtmlText v s l = Step.done r s' l') :
    (r = some HTML_TEXT_CONTENT ∨ r = none) ∧ s' = s := by
  simp only [scanHtmlText] at h
  split at h
  · split at h
    · simp_all
    · split at h <;> simp_all
  · simp_all

lemma htmlText_invalid {v : Nat → Bool} {s : List Nat} {l : Lexer}
    (hv : v HTML_TEXT_CONTENT = false) : scanHtmlText v s l = Step.next s l := by
  simp [scanHtmlText, hv]

lemma htmlText_ctx {v : Nat → Bool} {s : List Nat} {l : Lexer}
    (hs : in_csharp_context s = true) : scanHtmlText v s l = Step.next s l := by
  simp [scanHtmlText, hs]

lemma htmlText_break {v : Nat → Bool} {s : List Nat} {l : Lexer} {c : Char}
    (h : l.lookahead = some c) (hc : c = '<' ∨ c = '@') :
    scanHtmlText v s l = Step.next s l := by
  have hloop : htmlTextLoop (l.input.length + 1) l false false true = (false, false, l) := by
    unfold htmlTextLoop
    rw [h]
    rcases hc with hc | hc <;> subst hc <;> simp
  simp only [scanHtmlText, hloop]
  split <;> simp

lemma atOpen_next {v : Nat → Bool} {s : List Nat} {l : Lexer} {s' : List Nat} {l' : Lexer}
    (h : scanAtOpen v s l = Step.next s' l') : s' = s ∧ l' = l := by
  simp only [scanAtOpen] at h
  split at h
  · split at h
    · simp_all
    · split at h <;> simp_all
  · simp_all

lemma atOpen_done {v : Nat → Bool} {s : List Nat} {l : Lexer} {r : Option Nat} {s' : List Nat}
    {l' : Lexer} (h : scanAtOpen v s l = Step.done r s' l') :
    (r = some CSHARP_CODE_BLOCK_START ∧ s' = CONTEXT_CSHARP_BRACE :: s) ∨
    (r = some CSHARP_EXPLICIT_EXPR_START ∧ s' = CONTEXT_CSHARP_PAREN :: s) ∨
    (r = none ∧ s' = s) := by
  simp only [scanAtOpen] at h
  split at h
  · split at h
    · simp_all
    · split at h <;> simp_all
  · simp_all

lemma atOpen_notAt {v : Nat → Bool} {s : List Nat} {l : Lexer}
    (h : l.lookahead ≠ some '@') : scanAtOpen v s l = Step.next s l := by
  simp [scanAtOpen, h]

lemma atOpen_invalid {v : Nat → Bool} {s : List Nat} {l : Lexer}
    (h14 : v CSHARP_CODE_BLOCK_START = false) (h15 : v CSHARP_EXPLICIT_EXPR_START = false) :
    scanAtOpen v s l = Step.next s l := by
  simp [scanAtOpen, h14, h15]

lemma blockOpen_next {v : Nat → Bool} {s : List Nat} {l : Lexer} {s' : List Nat} {l' : Lexer}
    (h : scanRazorBlockOpen v s l = Step.next s' l') : s' = s := by
  simp only [scanRazorBlockOpen] at h
  split at h
  · split at h <;> simp_all
  · simp_all

lemma blockOpen_done {v : Nat → Bool} {s : List Nat} {l : Lexer} {r : Option Nat} {s' : List Nat}
    {l' : Lexer} (h : scanRazorBlockOpen v s l = Step.done r s' l') :
    r = some RAZOR_BLOCK_OPEN ∧ s' = CONTEXT_CSHARP_BRACE :: s := by
  simp only [scanRazorBlockOpen] at h
  split at h
  · split at h <;> simp_all
  · simp_all

lemma blockOpen_invalid {v : Nat → Bool} {s : List Nat} {l : Lexer}
    (hv : v RAZOR_BLOCK_OPEN = false) : scanRazorBlockOpen v s l = Step.next s l := by
  simp [scanRazorBlockOpen, hv]

lemma blockOpen_pass {v : Nat → Bool} {s : List Nat} {l : Lexer}
    (hv : v RAZOR_BLOCK_OPEN = true)
    (h : (skipWsLoop (l.input.length + 1) l).lookahead ≠ some lbrace) :
    scanRazorBlockOpen v s l = Step.next s (skipWsLoop (l.input.length + 1) l) := by
  simp [scanRazorBlockOpen, hv, h]

lemma contextClose_next {v : Nat → Bool} {s : List Nat} {l : Lexer} {s' : List Nat} {l' : Lexer}
    (h : scanContextClose v s l = Step.next s' l') : s' = s := by
  simp only [scanContextClose] at h
  split at h
  · split at h
    · split at h <;> simp_all
    · simp_all
  · simp_all

lemma contextClose_done {v : Nat → Bool} {s : List Nat} {l : Lexer} {r : Option Nat}
    {s' : List Nat} {l' : Lexer} (h : scanContextClose v s l = Step.done r s' l') :
    r = some CSHARP_CONTEXT_CLOSE ∧ v CSHARP_CONTEXT_CLOSE = true ∧
    ∃ t, s = t :: s' ∧
      ((t = CONTEXT_CSHARP_BRACE ∧ (skipWsLoop (l.input.length + 1) l).lookahead = some rbrace) ∨
       (t = CONTEXT_CSHARP_PAREN ∧ (skipWsLoop (l.input.length + 1) l).lookahead = some ')')) ∧
      l' = (skipWsLoop (l.input.length + 1) l).advance := by
  simp only [scanContextClose] at h
  split at h
  · rename_i hg
    split at h
    · rename_i top rest
      split at h
      · rename_i hcond
        simp only [Bool.or_eq_true, Bool.and_eq_true, decide_eq_true_eq] at hcond
        cases h
        simp only [Bool.and_eq_true] at hg
        refine ⟨rfl, ?_, top, rfl, ?_, rfl⟩
        · exact hg.1
        · rcases hcond with ⟨h1, h2⟩ | ⟨h1, h2⟩
          · exact Or.inl ⟨h1, by simpa using h2⟩
          · exact Or.inr ⟨h1, by simpa using h2⟩
      · simp_all
    · simp_all
  · simp_all

lemma contextClose_invalid {v : Nat → Bool} {s : List Nat} {l : Lexer}
    (hv : v CSHARP_CONTEXT_CLOSE = false) : scanContextClose v s l = Step.next s l := by
  simp [scanContextClose, hv]

lemma contextClose_commit {v : Nat → Bool} {t : Nat} {rest : List Nat} {l : Lexer}
    (hv : v CSHARP_CONTEXT_CLOSE = true)
    (hm : (t = CONTEXT_CSHARP_BRACE ∧ (skipWsLoop (l.input.length + 1) l).lookahead = some rbrace) ∨
          (t = CONTEXT_CSHARP_PAREN ∧ (skipWsLoop (l.input.length + 1) l).lookahead = some ')')) :
    scanContextClose v (t :: rest) l =
      Step.done (some CSHARP_CONTEXT_CLOSE) rest (skipWsLoop (l.input.length + 1) l).advance := by
  have hctx : in_csharp_context (t :: rest) = true := by simp [in_csharp_context]
  simp only [scanContextClose, hv, hctx, Bool.and_self, if_true]
  rcases hm with ⟨h1, h2⟩ | ⟨h1, h2⟩ <;> subst h1 <;> simp [h2]

lemma contextClose_mismatch {v : Nat → Bool} {t : Nat} {rest : List Nat} {l : Lexer}
    (hv : v CSHARP_CONTEXT_CLOSE = true)
    (hb : ¬(t = CONTEXT_CSHARP_BRACE ∧ (skipWsLoop (l.input.length + 1) l).lookahead = some rbrace))
    (hp : ¬(t = CONTEXT_CSHARP_PAREN ∧ (skipWsLoop (l.input.length + 1) l).lookahead = some ')')) :
    scanContextClose v (t :: rest) l = Step.next (t :: rest) (skipWsLoop (l.input.length + 1) l) := by
  have hctx : in_csharp_context (t :: rest) = true := by simp [in_csharp_context]
  simp only [scanContextClose, hv, hctx, Bool.and_self, if_true]
  rw [if_neg]
  simp only [Bool.or_eq_true, Bool.and_eq_true, decide_eq_true_eq]
  push_neg
  constructor
  · intro h1
    intro hcon
    exact hb ⟨h1, by simpa using hcon⟩
  · intro h1
    intro hcon
    exact hp ⟨h1, by simpa using hcon⟩

lemma comment_next {v : Nat → Bool} {s : List Nat} {l : Lexer} {s' : List Nat} {l' : Lexer}
    (h : scanCsharpComment v s l = Step.next s' l') : s' = s ∧ l' = l := by
  simp only [scanCsharpComment] at h
  split at h
  · split at h
    · split at h
      · simp_all
      · split at h <;> simp_all
    · simp_all
  · simp_all

lemma comment_done {v : Nat → Bool} {s : List Nat} {l : Lexer} {r : Option Nat} {s' : List Nat}
    {l' : Lexer} (h : scanCsharpComment v s l = Step.done r s' l') :
    (r = some CSHARP_COMMENT ∨ r = none) ∧ s' = s ∧ in_csharp_context s = true := by
  simp only [scanCsharpComment] at h
  split at h
  · rename_i hg
    simp only [Bool.and_eq_true] at hg
    split at h
    · split at h
      · simp_all
      · split at h <;> simp_all
    · simp_all
  · simp_all

lemma comment_invalid {v : Nat → Bool} {s : List Nat} {l : Lexer}
    (hv : v CSHARP_COMMENT = false) : scanCsharpComment v s l = Step.next s l := by
  simp [scanCsharpComment, hv]

lemma comment_notSlash {v : Nat → Bool} {s : List Nat} {l : Lexer}
    (h : l.lookahead ≠ some '/') : scanCsharpComment v s l = Step.next s l := by
  simp only [scanCsharpComment]
  split
  · simp [h]
  · rfl

lemma preproc_next {v : Nat → Bool} {s : List Nat} {l : Lexer} {s' : List Nat} {l' : Lexer}
    (h : scanCsharpPreproc v s l = Step.next s' l') : s' = s ∧ l' = l := by
  simp only [scanCsharpPreproc] at h
  split at h <;> simp_all

lemma preproc_done {v : Nat → Bool} {s : List Nat} {l : Lexer} {r : Option Nat} {s' : List Nat}
    {l' : Lexer} (h : scanCsharpPreproc v s l = Step.done r s' l') :
    r = some CSHARP_PREPROC ∧ s' = s ∧ in_csharp_context s = true := by
  simp only [scanCsharpPreproc] at h
  split at h
  · rename_i hg
    simp only [Bool.and_eq_true] at hg
    simp_all
  · simp_all

lemma preproc_invalid {v : Nat → Bool} {s : List Nat} {l : Lexer}
    (hv : v CSHARP_PREPROC = false) : scanCsharpPreproc v s l = Step.next s l := by
  simp [scanCsharpPreproc, hv]

lemma preproc_notHash {v : Nat → Bool} {s : List Nat} {l : Lexer}
    (h : l.lookahead ≠ some '#') : scanCsharpPreproc v s l = Step.next s l := by
  simp [scanCsharpPreproc, h]

lemma raw_next {tag : List Char} {sym : Nat} {v : Nat → Bool} {s : List Nat} {l : Lexer}
    {s' : List Nat} {l' : Lexer}
    (h : scanRawContent tag sym v s l = Step.next s' l') : s' = s ∧ l' = l := by
  simp only [scanRawContent] at h
  split at h
  · split at h
    · split at h <;> simp_all
    · split at h <;> simp_all
  · simp_all

lemma raw_done {tag : List Char} {sym : Nat} {v : Nat → Bool} {s : List Nat} {l : Lexer}
    {r : Option Nat} {s' : List Nat} {l' : Lexer}
    (h : scanRawContent tag sym v s l = Step.done r s' l') :
    (r = some sym ∨ r = none) ∧ s' = s := by
  simp only [scanRawContent] at h
  split at h
  · split at h
    · split at h <;> simp_all
    · split at h <;> simp_all
  · simp_all

lemma raw_invalid {tag : List Char} {sym : Nat} {v : Nat → Bool} {s : List Nat} {l : Lexer}
    (hv : v sym = false) : scanRawContent tag sym v s l = Step.next s l := by
  simp [scanRawContent, hv]

lemma raw_lt {tag : List Char} {sym : Nat} {v : Nat → Bool} {s : List Nat} {l : Lexer}
    (hv : v sym = true) (h : l.lookahead = some '<') :
    (scanRawContent tag sym v s l = Step.done none s l.markEnd.advance.advance ∧
       l.markEnd.advance.lookahead = some '/') ∨
    (scanRawContent tag sym v s l = Step.done none s l.markEnd.advance ∧
       ¬l.markEnd.advance.lookahead = some '/') := by
  by_cases hsl : l.markEnd.advance.lookahead = some '/'
  · exact Or.inl ⟨by simp [scanRawContent, hv, h, hsl], hsl⟩
  · exact Or.inr ⟨by simp [scanRawContent, hv, h, hsl], hsl⟩

/- ------------------------------------------------------------------
Master analysis of the dispatcher
------------------------------------------------------------------ -/

/-- The scan result was produced by the final delegation to the sub-scanner
(with the mode stack passed through unchanged). -/
def fromSub {σ : Type} (subScan : σ → Lexer → (Nat → Bool) → Option Nat × σ × Lexer) (sub : σ)
    (stack : List Nat) (valid : Nat → Bool) (res : Option Nat × σ × List Nat × Lexer) : Prop :=
  ∃ l', res = ((subScan sub l' valid).1, (subScan sub l' valid).2.1, stack,
               (subScan sub l' valid).2.2)

/- Dispatch rewriting lemmas for each stage of the chain. -/

lemma dispatch_textAt_done {σ : Type} {subScan : σ → Lexer → (Nat → Bool) → Option Nat × σ × Lexer}
    {sub : σ} {stack : List Nat} {lex : Lexer} {valid : Nat → Bool} {r : Option Nat}
    {s : List Nat} {l : Lexer} (h : scanTextWithLiteralAt valid stack lex = Step.done r s l) :
    razorScan subScan sub stack lex valid = (r, sub, s, l) := by
  unfold razorScan; rw [h]

lemma dispatch_textAt_next {σ : Type} {subScan : σ → Lexer → (Nat → Bool) → Option Nat × σ × Lexer}
    {sub : σ} {stack : List Nat} {lex : Lexer} {valid : Nat → Bool}
    {s : List Nat} {l : Lexer} (h : scanTextWithLiteralAt valid stack lex = Step.next s l) :
    razorScan subScan sub stack lex valid = razorScanFromHtml subScan sub s l valid := by
  unfold razorScan; rw [h]

lemma dispatch_html_done {σ : Type} {subScan : σ → Lexer → (Nat → Bool) → Option Nat × σ × Lexer}
    {sub : σ} {stack : List Nat} {lex : Lexer} {valid : Nat → Bool} {r : Option Nat}
    {s : List Nat} {l : Lexer} (h : scanHtmlText valid stack lex = Step.done r s l) :
    razorScanFromHtml subScan sub stack lex valid = (r, sub, s, l) := by
  unfold razorScanFromHtml; rw [h]

lemma dispatch_html_next {σ : Type} {subScan : σ → Lexer → (Nat → Bool) → Option Nat × σ × Lexer}
    {sub : σ} {stack : List Nat} {lex : Lexer} {valid : Nat → Bool}
    {s : List Nat} {l : Lexer} (h : scanHtmlText valid stack lex = Step.next s l) :
    razorScanFromHtml subScan sub stack lex valid = razorScanFromAtOpen subScan sub s l valid := by
  unfold razorScanFromHtml; rw [h]

lemma dispatch_atOpen_done {σ : Type} {subScan : σ → Lexer → (Nat → Bool) → Option Nat × σ × Lexer}
    {sub : σ} {stack : List Nat} {lex : Lexer} {valid : Nat → Bool} {r : Option Nat}
    {s : List Nat} {l : Lexer} (h : scanAtOpen valid stack lex = Step.done r s l) :
    razorScanFromAtOpen subScan sub stack lex valid = (r, sub, s, l) := by
  unfold razorScanFromAtOpen; rw [h]

lemma dispatch_atOpen_next {σ : Type} {subScan : σ → Lexer → (Nat → Bool) → Option Nat × σ × Lexer}
    {sub : σ} {stack : List Nat} {lex : Lexer} {valid : Nat → Bool}
    {s : List Nat} {l : Lexer} (h : scanAtOpen valid stack lex = Step.next s l) :
    razorScanFromAtOpen subScan sub stack lex valid =
      razorScanFromBlockOpen subScan sub s l valid := by
  unfold razorScanFromAtOpen; rw [h]

lemma dispatch_blockOpen_done {σ : Type}
    {subScan : σ → Lexer → (Nat → Bool) → Option Nat × σ × Lexer}
    {sub : σ} {stack : List Nat} {lex : Lexer} {valid : Nat → Bool} {r : Option Nat}
    {s : List Nat} {l : Lexer} (h : scanRazorBlockOpen valid stack lex = Step.done r s l) :
    razorScanFromBlockOpen subScan sub stack lex valid = (r, sub, s, l) := by
  unfold razorScanFromBlockOpen; rw [h]

lemma dispatch_blockOpen_next {σ : Type}
    {subScan : σ → Lexer → (Nat → Bool) → Option Nat × σ × Lexer}
    {sub : σ} {stack : List Nat} {lex : Lexer} {valid : Nat → Bool}
    {s : List Nat} {l : Lexer} (h : scanRazorBlockOpen valid stack lex = Step.next s l) :
    razorScanFromBlockOpen subScan sub stack lex valid =
      razorScanFromClose subScan sub s l valid := by
  unfold razorScanFromBlockOpen; rw [h]

lemma dispatch_close_done {σ : Type} {subScan : σ → Lexer → (Nat → Bool) → Option Nat × σ × Lexer}
    {sub : σ} {stack : List Nat} {lex : Lexer} {valid : Nat → Bool} {r : Option Nat}
    {s : List Nat} {l : Lexer} (h : scanContextClose valid stack lex = Step.done r s l) :
    razorScanFromClose subScan sub stack lex valid = (r, sub, s, l) := by
  unfold razorScanFromClose; rw [h]

lemma dispatch_close_next {σ : Type} {subScan : σ → Lexer → (Nat → Bool) → Option Nat × σ × Lexer}
    {sub : σ} {stack : List Nat} {lex : Lexer} {valid : Nat → Bool}
    {s : List Nat} {l : Lexer} (h : scanContextClose valid stack lex = Step.next s l) :
    razorScanFromClose subScan sub stack lex valid =
      razorScanFromComment subScan sub s l valid := by
  unfold razorScanFromClose; rw [h]

lemma dispatch_comment_done {σ : Type}
    {subScan : σ → Lexer → (Nat → Bool) → Option Nat × σ × Lexer}
    {sub : σ} {stack : List Nat} {lex : Lexer} {valid : Nat → Bool} {r : Option Nat}
    {s : List Nat} {l : Lexer} (h : scanCsharpComment valid stack lex = Step.done r s l) :
    razorScanFromComment subScan sub stack lex valid = (r, sub, s, l) := by
  unfold razorScanFromComment; rw [h]

lemma dispatch_comment_next {σ : Type}
    {subScan : σ → Lexer → (Nat → Bool) → Option Nat × σ × Lexer}
    {sub : σ} {stack : List Nat} {lex : Lexer} {valid : Nat → Bool}
    {s : List Nat} {l : Lexer} (h : scanCsharpComment valid stack lex = Step.next s l) :
    razorScanFromComment subScan sub stack lex valid =
      razorScanFromPreproc subScan sub s l valid := by
  unfold razorScanFromComment; rw [h]

lemma dispatch_preproc_done {σ : Type}
    {subScan : σ → Lexer → (Nat → Bool) → Option Nat × σ × Lexer}
    {sub : σ} {stack : List Nat} {lex : Lexer} {valid : Nat → Bool} {r : Option Nat}
    {s : List Nat} {l : Lexer} (h : scanCsharpPreproc valid stack lex = Step.done r s l) :
    razorScanFromPreproc subScan sub stack lex valid = (r, sub, s, l) := by
  unfold razorScanFromPreproc; rw [h]

lemma dispatch_preproc_next {σ : Type}
    {subScan : σ → Lexer → (Nat → Bool) → Option Nat × σ × Lexer}
    {sub : σ} {stack : List Nat} {lex : Lexer} {valid : Nat → Bool}
    {s : List Nat} {l : Lexer} (h : scanCsharpPreproc valid stack lex = Step.next s l) :
    razorScanFromPreproc subScan sub stack lex valid =
      razorScanFromScript subScan sub s l valid := by
  unfold razorScanFromPreproc; rw [h]

lemma dispatch_script_done {σ : Type}
    {subScan : σ → Lexer → (Nat → Bool) → Option Nat × σ × Lexer}
    {sub : σ} {stack : List Nat} {lex : Lexer} {valid : Nat → Bool} {r : Option Nat}
    {s : List Nat} {l : Lexer}
    (h : scanRawContent ("script".toList) SCRIPT_CONTENT valid stack lex = Step.done r s l) :
    razorScanFromScript subScan sub stack lex valid = (r, sub, s, l) := by
  unfold razorScanFromScript; rw [h]

lemma dispatch_script_next {σ : Type}
    {subScan : σ → Lexer → (Nat → Bool) → Option Nat × σ × Lexer}
    {sub : σ} {stack : List Nat} {lex : Lexer} {valid : Nat → Bool}
    {s : List Nat} {l : Lexer}
    (h : scanRawContent ("script".toList) SCRIPT_CONTENT valid stack lex = Step.next s l) :
    razorScanFromScript subScan sub stack lex valid =
      razorScanFromStyle subScan sub s l valid := by
  unfold razorScanFromScript; rw [h]

lemma dispatch_style_done {σ : Type}
    {subScan : σ → Lexer → (Nat → Bool) → Option Nat × σ × Lexer}
    {sub : σ} {stack : List Nat} {lex : Lexer} {valid : Nat → Bool} {r : Option Nat}
    {s : List Nat} {l : Lexer}
    (h : scanRawContent ("style".toList) STYLE_CONTENT valid stack lex = Step.done r s l) :
    razorScanFromStyle subScan sub stack lex valid = (r, sub, s, l) := by
  unfold razorScanFromStyle; rw [h]

lemma dispatch_style_next {σ : Type}
    {subScan : σ → Lexer → (Nat → Bool) → Option Nat × σ × Lexer}
    {sub : σ} {stack : List Nat} {lex : Lexer} {valid : Nat → Bool}
    {s : List Nat} {l : Lexer}
    (h : scanRawContent ("style".toList) STYLE_CONTENT valid stack lex = Step.next s l) :
    razorScanFromStyle subScan sub stack lex valid =
      razorScanFromTitle subScan sub s l valid := by
  unfold razorScanFromStyle; rw [h]

lemma dispatch_title_done {σ : Type}
    {subScan : σ → Lexer → (Nat → Bool) → Option Nat × σ × Lexer}
    {sub : σ} {stack : List Nat} {lex : Lexer} {valid : Nat → Bool} {r : Option Nat}
    {s : List Nat} {l : Lexer}
    (h : scanRawContent ("title".toList) TITLE_CONTENT valid stack lex = Step.done r s l) :
    razorScanFromTitle subScan sub stack lex valid = (r, sub, s, l) := by
  unfold razorScanFromTitle; rw [h]

lemma dispatch_title_next {σ : Type}
    {subScan : σ → Lexer → (Nat → Bool) → Option Nat × σ × Lexer}
    {sub : σ} {stack : List Nat} {lex : Lexer} {valid : Nat → Bool}
    {s : List Nat} {l : Lexer}
    (h : scanRawContent ("title".toList) TITLE_CONTENT valid stack lex = Step.next s l) :
    razorScanFromTitle subScan sub stack lex valid =
      razorScanFromTextarea subScan sub s l valid := by
  unfold razorScanFromTitle; rw [h]

lemma dispatch_textarea_done {σ : Type}
    {subScan : σ → Lexer → (Nat → Bool) → Option Nat × σ × Lexer}
    {sub : σ} {stack : List Nat} {lex : Lexer} {valid : Nat → Bool} {r : Option Nat}
    {s : List Nat} {l : Lexer}
    (h : scanRawContent ("textarea".toList) TEXTAREA_CONTENT valid stack lex = Step.done r s l) :
    razorScanFromTextarea subScan sub stack lex valid = (r, sub, s, l) := by
  unfold razorScanFromTextarea; rw [h]

lemma dispatch_textarea_next {σ : Type}
    {subScan : σ → Lexer → (Nat → Bool) → Option Nat × σ × Lexer}
    {sub : σ} {stack : List Nat} {lex : Lexer} {valid : Nat → Bool}
    {s : List Nat} {l : Lexer}
    (h : scanRawContent ("textarea".toList) TEXTAREA_CONTENT valid stack lex = Step.next s l) :
    razorScanFromTextarea subScan sub stack lex valid =
      razorScanDelegate subScan sub s l valid := by
  unfold razorScanFromTextarea; rw [h]

/-- Which stage can produce which result kind, and with which stack effect. -/
lemma razorScan_master {σ : Type} (subScan : σ → Lexer → (Nat → Bool) → Option Nat × σ × Lexer)
    (sub : σ) (stack : List Nat) (lex : Lexer) (valid : Nat → Bool)
    (res : Option Nat × σ × List Nat × Lexer)
    (hres : razorScan subScan sub stack lex valid = res) :
    (res.1 = some CSHARP_CODE_BLOCK_START →
       res.2.2.1 = CONTEXT_CSHARP_BRACE :: stack ∨ fromSub subScan sub stack valid res) ∧
    (res.1 = some CSHARP_EXPLICIT_EXPR_START →
       res.2.2.1 = CONTEXT_CSHARP_PAREN :: stack ∨ fromSub subScan sub stack valid res) ∧
    (res.1 = some RAZOR_BLOCK_OPEN →
       res.2.2.1 = CONTEXT_CSHARP_BRACE :: stack ∨ fromSub subScan sub stack valid res) ∧
    (res.1 = some CSHARP_CONTEXT_CLOSE →
       (valid CSHARP_CONTEXT_CLOSE = true ∧ in_csharp_context stack = true ∧
        ∃ t, stack = t :: res.2.2.1) ∨ fromSub subScan sub stack valid res) ∧
    (res.1 = some CSHARP_COMMENT →
       in_csharp_context stack = true ∨ fromSub subScan sub stack valid res) ∧
    (res.1 = some CSHARP_PREPROC →
       in_csharp_context stack = true ∨ fromSub subScan sub stack valid res) ∧
    ((res.1 = none ∨ ∃ k, res.1 = some k ∧ k ≠ CSHARP_CODE_BLOCK_START ∧
        k ≠ CSHARP_EXPLICIT_EXPR_START ∧ k ≠ RAZOR_BLOCK_OPEN ∧ k ≠ CSHARP_CONTEXT_CLOSE) →
       res.2.2.1 = stack) := by
  cases h1 : scanTextWithLiteralAt valid stack lex with
  | done r s l =>
    rw [dispatch_textAt_done h1] at hres
    obtain ⟨hr, hs⟩ := textAt_done h1
    subst hr hs hres
    refine ⟨?_, ?_, ?_, ?_, ?_, ?_, ?_⟩ <;> intro h <;> simp_all
  | next s1 l1 =>
    rw [dispatch_textAt_next h1] at hres
    have hs1 : stack = s1 := (textAt_next h1).symm
    subst hs1
    cases h2 : scanHtmlText valid stack l1 with
    | done r s l =>
      rw [dispatch_html_done h2] at hres
      obtain ⟨hr, hs⟩ := htmlText_done h2
      subst hs hres
      rcases hr with hr | hr <;> subst hr <;>
        refine ⟨?_, ?_, ?_, ?_, ?_, ?_, ?_⟩ <;> intro h <;> simp_all
    | next s2 l2 =>
      rw [dispatch_html_next h2] at hres
      have hs2 : stack = s2 := (htmlText_next h2).symm
      subst hs2
      cases h3 : scanAtOpen valid stack l2 with
      | done r s l =>
        rw [dispatch_atOpen_done h3] at hres
        subst hres
        rcases atOpen_done h3 with ⟨hr, hs⟩ | ⟨hr, hs⟩ | ⟨hr, hs⟩ <;> subst hr hs <;>
          refine ⟨?_, ?_, ?_, ?_, ?_, ?_, ?_⟩ <;> intro h <;> simp_all
      | next s3 l3 =>
        rw [dispatch_atOpen_next h3] at hres
        have hs3 : stack = s3 := (atOpen_next h3).1.symm
        subst hs3
        cases h4 : scanRazorBlockOpen valid stack l3 with
        | done r s l =>
          rw [dispatch_blockOpen_done h4] at hres
          subst hres
          obtain ⟨hr, hs⟩ := blockOpen_done h4
          subst hr hs
          refine ⟨?_, ?_, ?_, ?_, ?_, ?_, ?_⟩ <;> intro h <;> simp_all
        | next s4 l4 =>
          rw [dispatch_blockOpen_next h4] at hres
          have hs4 : stack = s4 := (blockOpen_next h4).symm
          subst hs4
          cases h5 : scanContextClose valid stack l4 with
          | done r s l =>
            rw [dispatch_close_done h5] at hres
            subst hres
            obtain ⟨hr, hv, t, hs, -, -⟩ := contextClose_done h5
            subst hr
            refine ⟨?_, ?_, ?_, ?_, ?_, ?_, ?_⟩ <;> intro h
            · simp_all
            · simp_all
            · simp_all
            · exact Or.inl ⟨hv, by simp [in_csharp_context, hs], t, hs⟩
            · simp_all
            · simp_all
            · simp_all
          | next s5 l5 =>
            rw [dispatch_close_next h5] at hres
            have hs5 : stack = s5 := (contextClose_next h5).symm
            subst hs5
            cases h6 : scanCsharpComment valid stack l5 with
            | done r s l =>
              rw [dispatch_comment_done h6] at hres
              subst hres
              obtain ⟨hr, hs, hctx⟩ := comment_done h6
              subst hs
              rcases hr with hr | hr <;> subst hr <;>
                refine ⟨?_, ?_, ?_, ?_, ?_, ?_, ?_⟩ <;> intro h <;> simp_all
            | next s6 l6 =>
              rw [dispatch_comment_next h6] at hres
              have hs6 : stack = s6 := (comment_next h6).1.symm
              subst hs6
              cases h7 : scanCsharpPreproc valid stack l6 with
              | done r s l =>
                rw [dispatch_preproc_done h7] at hres
                subst hres
                obtain ⟨hr, hs, hctx⟩ := preproc_done h7
                subst hr hs
                refine ⟨?_, ?_, ?_, ?_, ?_, ?_, ?_⟩ <;> intro h <;> simp_all
              | next s7 l7 =>
                rw [dispatch_preproc_next h7] at hres
                have hs7 : stack = s7 := (preproc_next h7).1.symm
                subst hs7
                cases h8 : scanRawContent ("script".toList) SCRIPT_CONTENT valid stack l7 with
                | done r s l =>
                  rw [dispatch_script_done h8] at hres
                  subst hres
                  obtain ⟨hr, hs⟩ := raw_done h8
                  subst hs
                  rcases hr with hr | hr <;> subst hr <;>
                    refine ⟨?_, ?_, ?_, ?_, ?_, ?_, ?_⟩ <;> intro h <;> simp_all
                | next s8 l8 =>
                  rw [dispatch_script_next h8] at hres
                  have hs8 : stack = s8 := (raw_next h8).1.symm
                  subst hs8
                  cases h9 : scanRawContent ("style".toList) STYLE_CONTENT valid stack l8 with
                  | done r s l =>
                    rw [dispatch_style_done h9] at hres
                    subst hres
                    obtain ⟨hr, hs⟩ := raw_done h9
                    subst hs
                    rcases hr with hr | hr <;> subst hr <;>
                      refine ⟨?_, ?_, ?_, ?_, ?_, ?_, ?_⟩ <;> intro h <;> simp_all
                  | next s9 l9 =>
                    rw [dispatch_style_next h9] at hres
                    have hs9 : stack = s9 := (raw_next h9).1.symm
                    subst hs9
                    cases h10 : scanRawContent ("title".toList) TITLE_CONTENT valid stack l9 with
                    | done r s l =>
                      rw [dispatch_title_done h10] at hres
                      subst hres
                      obtain ⟨hr, hs⟩ := raw_done h10
                      subst hs
                      rcases hr with hr | hr <;> subst hr <;>
                        refine ⟨?_, ?_, ?_, ?_, ?_, ?_, ?_⟩ <;> intro h <;> simp_all
                    | next s10 l10 =>
                      rw [dispatch_title_next h10] at hres
                      have hs10 : stack = s10 := (raw_next h10).1.symm
                      subst hs10
                      cases h11 : scanRawContent ("textarea".toList) TEXTAREA_CONTENT valid stack l10 with
                      | done r s l =>
                        rw [dispatch_textarea_done h11] at hres
                        subst hres
                        obtain ⟨hr, hs⟩ := raw_done h11
                        subst hs
                        rcases hr with hr | hr <;> subst hr <;>
                          refine ⟨?_, ?_, ?_, ?_, ?_, ?_, ?_⟩ <;> intro h <;> simp_all
                      | next s11 l11 =>
                        rw [dispatch_textarea_next h11] at hres
                        have hs11 : stack = s11 := (raw_next h11).1.symm
                        subst hs11
                        subst hres
                        have hfs : fromSub subScan sub stack valid
                            (razorScanDelegate subScan sub stack l11 valid) := ⟨l11, rfl⟩
                        exact ⟨fun _ => Or.inr hfs, fun _ => Or.inr hfs, fun _ => Or.inr hfs,
                               fun _ => Or.inr hfs, fun _ => Or.inr hfs, fun _ => Or.inr hfs,
                               fun _ => rfl⟩

/- ------------------------------------------------------------------
Concrete instances used by witnesses and counterexamples
------------------------------------------------------------------ -/

/-- A sub-scanner that always declines and changes nothing. -/
def declineSub : Unit → Lexer → (Nat → Bool) → Option Nat × Unit × Lexer :=
  fun s l _ => (none, s, l)

/-- A sub-scanner that always commits its token kind 0. -/
def commitSub : Unit → Lexer → (Nat → Bool) → Option Nat × Unit × Lexer :=
  fun s l _ => (some 0, s, l)

/-- An admissible-symbols table with exactly one admissible kind. -/
def onlyKind (n : Nat) : Nat → Bool := fun k => k == n

/- ------------------------------------------------------------------
Claims
------------------------------------------------------------------ -/

/-- Claim C1: for every input and every admissible-symbols set, when the mode
stack is empty a call to scan never commits a CSHARP_COMMENT or CSHARP_PREPROC
token (the sub-scanner is assumed to declare only its own token kinds, which
are numbered below CSHARP_TOKEN_COUNT). -/
theorem claimC1 {σ : Type} (subScan : σ → Lexer → (Nat → Bool) → Option Nat × σ × Lexer)
    (hsub : ∀ (s : σ) (l : Lexer) (v : Nat → Bool) (k : Nat),
      (subScan s l v).1 = some k → k < CSHARP_TOKEN_COUNT)
    (sub : σ) (lex : Lexer) (valid : Nat → Bool) :
    (razorScan subScan sub [] lex valid).1 ≠ some CSHARP_COMMENT ∧
    (razorScan subScan sub [] lex valid).1 ≠ some CSHARP_PREPROC := by
  obtain ⟨-, -, -, -, h18, h19, -⟩ :=
    razorScan_master subScan sub [] lex valid (razorScan subScan sub [] lex valid) rfl
  constructor
  · intro hc
    rcases h18 hc with hctx | ⟨l', hl⟩
    · simp [in_csharp_context] at hctx
    · rw [hl] at hc
      exact absurd (hsub sub l' valid CSHARP_COMMENT (by simpa using hc)) (by decide)
  · intro hc
    rcases h19 hc with hctx | ⟨l', hl⟩
    · simp [in_csharp_context] at hctx
    · rw [hl] at hc
      exact absurd (hsub sub l' valid CSHARP_PREPROC (by simpa using hc)) (by decide)

theorem claimC1_witness :
    (razorScan declineSub () [] (mkLexer ['x']) (fun _ => true)).1 ≠ some CSHARP_COMMENT ∧
    (razorScan declineSub () [] (mkLexer ['x']) (fun _ => true)).1 ≠ some CSHARP_PREPROC :=
  claimC1 declineSub (fun s l v k h => by simp [declineSub] at h) () (mkLexer ['x'])
    (fun _ => true)

/-- Claim C10: every single call to scan changes the mode stack by at most one
element, and only via the four mode-transition outcomes: committing
CSHARP_CODE_BLOCK_START, CSHARP_EXPLICIT_EXPR_START or RAZOR_BLOCK_OPEN pushes
exactly one tag, committing CSHARP_CONTEXT_CLOSE pops exactly one tag, and
every other outcome (a decline, or a commit of any other kind including
sub-scanner kinds) leaves the mode stack exactly as it was. -/
theorem claimC10 {σ : Type} (subScan : σ → Lexer → (Nat → Bool) → Option Nat × σ × Lexer)
    (hsub : ∀ (s : σ) (l : Lexer) (v : Nat → Bool) (k : Nat),
      (subScan s l v).1 = some k → k < CSHARP_TOKEN_COUNT)
    (sub : σ) (stack : List Nat) (lex : Lexer) (valid : Nat → Bool)
    (res : Option Nat × σ × List Nat × Lexer)
    (hres : razorScan subScan sub stack lex valid = res) :
    (res.1 = some CSHARP_CODE_BLOCK_START → res.2.2.1 = CONTEXT_CSHARP_BRACE :: stack) ∧
    (res.1 = some CSHARP_EXPLICIT_EXPR_START → res.2.2.1 = CONTEXT_CSHARP_PAREN :: stack) ∧
    (res.1 = some RAZOR_BLOCK_OPEN → res.2.2.1 = CONTEXT_CSHARP_BRACE :: stack) ∧
    (res.1 = some CSHARP_CONTEXT_CLOSE → ∃ t, stack = t :: res.2.2.1) ∧
    ((res.1 ≠ some CSHARP_CODE_BLOCK_START ∧ res.1 ≠ some CSHARP_EXPLICIT_EXPR_START ∧
      res.1 ≠ some RAZOR_BLOCK_OPEN ∧ res.1 ≠ some CSHARP_CONTEXT_CLOSE) →
      res.2.2.1 = stack) := by
  obtain ⟨h14, h15, h16, h17, -, -, h7⟩ :=
    razorScan_master subScan sub stack lex valid res hres
  have hnotsub : ∀ k, 12 ≤ k → res.1 = some k →
      ¬fromSub subScan sub stack valid res := by
    intro k hk hres1 ⟨l', hl⟩
    rw [hl] at hres1
    have h2 : k < 12 := hsub sub l' valid k (by simpa using hres1)
    omega
  refine ⟨?_, ?_, ?_, ?_, ?_⟩
  · intro h
    rcases h14 h with h' | hfs
    · exact h'
    · exact absurd hfs (hnotsub CSHARP_CODE_BLOCK_START (by decide) h)
  · intro h
    rcases h15 h with h' | hfs
    · exact h'
    · exact absurd hfs (hnotsub CSHARP_EXPLICIT_EXPR_START (by decide) h)
  · intro h
    rcases h16 h with h' | hfs
    · exact h'
    · exact absurd hfs (hnotsub RAZOR_BLOCK_OPEN (by decide) h)
  · intro h
    rcases h17 h with ⟨-, -, t, ht⟩ | hfs
    · exact ⟨t, ht⟩
    · exact absurd hfs (hnotsub CSHARP_CONTEXT_CLOSE (by decide) h)
  · rintro ⟨n14, n15, n16, n17⟩
    apply h7
    cases hr : res.1 with
    | none => exact Or.inl rfl
    | some k =>
      refine Or.inr ⟨k, rfl, ?_, ?_, ?_, ?_⟩ <;> rintro rfl <;> simp_all

theorem claimC10_witness :
    (razorScan declineSub () [CONTEXT_CSHARP_BRACE] (mkLexer ['x']) (fun _ => true)).2.2.1 =
      [CONTEXT_CSHARP_BRACE] := by
  have h := claimC10 declineSub (fun s l v k h => by simp [declineSub] at h) ()
    [CONTEXT_CSHARP_BRACE] (mkLexer ['x']) (fun _ => true) _ rfl
  exact h.2.2.2.2 (by refine ⟨?_, ?_, ?_, ?_⟩ <;> decide)

/-- Claim C9 as stated is false (see the counterexample: an admissible
raw-content family that declines returns immediately without delegating).
Amended claim: a decline by a Razor-specific family can suppress delegation;
delegation to the embedded sub-scanner is guaranteed whenever none of the
Razor-specific token kinds is admissible. -/
theorem claimC9 {σ : Type} (subScan : σ → Lexer → (Nat → Bool) → Option Nat × σ × Lexer)
    (sub : σ) (stack : List Nat) (lex : Lexer) (valid : Nat → Bool)
    (hv : ∀ k, 12 ≤ k → k ≤ 23 → valid k = false) :
    razorScan subScan sub stack lex valid = razorScanDelegate subScan sub stack lex valid := by
  rw [dispatch_textAt_next (textAt_invalid (hv 12 (by decide) (by decide))),
      dispatch_html_next (htmlText_invalid (hv 13 (by decide) (by decide))),
      dispatch_atOpen_next (atOpen_invalid (hv 14 (by decide) (by decide))
        (hv 15 (by decide) (by decide))),
      dispatch_blockOpen_next (blockOpen_invalid (hv 16 (by decide) (by decide))),
      dispatch_close_next (contextClose_invalid (hv 17 (by decide) (by decide))),
      dispatch_comment_next (comment_invalid (hv 18 (by decide) (by decide))),
      dispatch_preproc_next (preproc_invalid (hv 19 (by decide) (by decide))),
      dispatch_script_next (raw_invalid (hv 20 (by decide) (by decide))),
      dispatch_style_next (raw_invalid (hv 21 (by decide) (by decide))),
      dispatch_title_next (raw_invalid (hv 22 (by decide) (by decide))),
      dispatch_textarea_next (raw_invalid (hv 23 (by decide) (by decide)))]

theorem claimC9_witness :
    razorScan declineSub () [] (mkLexer ['y']) (fun _ => false) =
      razorScanDelegate declineSub () [] (mkLexer ['y']) (fun _ => false) :=
  claimC9 declineSub () [] (mkLexer ['y']) (fun _ => false) (fun _ _ _ => rfl)

/-- Counterexample to claim C9 as stated: with SCRIPT_CONTENT admissible and
the input starting with an angle bracket, the scan declines without invoking
the sub-scanner, although no Razor family committed a token and the
sub-scanner (here one that always commits its kind 0, which is admissible)
would have claimed the input. -/
theorem claimC9_counterexample :
    (razorScan commitSub () [] (mkLexer ['<', 'x'])
        (fun k => k == SCRIPT_CONTENT || k == 0)).1 = none ∧
    (razorScanDelegate commitSub () [] (mkLexer ['<', 'x'])
        (fun k => k == SCRIPT_CONTENT || k == 0)).1 = some 0 ∧
    razorScan commitSub () [] (mkLexer ['<', 'x']) (fun k => k == SCRIPT_CONTENT || k == 0) ≠
      razorScanDelegate commitSub () [] (mkLexer ['<', 'x'])
        (fun k => k == SCRIPT_CONTENT || k == 0) := by
  refine ⟨rfl, rfl, ?_⟩
  decide

/-- Claim C8: serialization returns length zero exactly on overflow of the
host's fixed buffer, and otherwise the exact total length
sub-scanner-blob-size + 1 + stack-depth. -/
theorem claimC8 {σ : Type} (subSer : σ → List Nat) (sub : σ) (stack : List Nat) :
    ((subSer sub).length + 1 + stack.length > TS_SERIALIZATION_BUFFER_SIZE →
      (razor_serialize subSer sub stack).length = 0) ∧
    ((subSer sub).length + 1 + stack.length ≤ TS_SERIALIZATION_BUFFER_SIZE →
      (razor_serialize subSer sub stack).length =
        (subSer sub).length + 1 + stack.length) := by
  constructor
  · intro h
    unfold razor_serialize
    rw [if_pos (by omega)]
    rfl
  · intro h
    unfold razor_serialize
    rw [if_neg (by omega)]
    simp [List.length_append]
    omega

theorem claimC8_witness :
    (razor_serialize (fun _ : Unit => [0, 0]) () []).length = 3 ∧
    (razor_serialize (fun _ : Unit => [0, 0]) () (List.replicate 1024 1)).length = 0 := by
  constructor
  · have h := (claimC8 (fun _ : Unit => [0, 0]) () []).2 (by decide)
    simpa using h
  · have hlen : (List.replicate 1024 (1 : Nat)).length = 1024 := List.length_replicate 1024 1
    have h := (claimC8 (fun _ : Unit => [0, 0]) () (List.replicate 1024 1)).1
      (by simp only [hlen]; decide)
    exact h

/-- Claim C7 as stated is false: a serializable state whose sub-scanner blob
and stack together exceed the host buffer makes serialize return the
zero-length result, and deserializing that empty buffer resets the stack (see
the counterexample).  Amended claim: for every scanner state with mode stack
depth 0-255 whose serialization does not overflow the host buffer,
serialize-then-deserialize reproduces an identical mode stack
element-by-element and an identical sub-scanner-observable state.  The
sub-scanner serialize/deserialize pair is assumed to follow its documented
contract: the blob is 2 + 4N bytes with N stored at index 1, and
deserializing a blob restores the state. -/
theorem claimC7 {σ : Type} (subSer : σ → List Nat) (subDeser : List Nat → σ) (sub : σ)
    (stack : List Nat)
    (hblob : (subSer sub).length = 2 + (subSer sub).getD 1 0 * 4)
    (hround : subDeser (subSer sub) = sub)
    (hdepth : stack.length ≤ 255)
    (helts : ∀ t ∈ stack, t < 256)
    (hfit : (subSer sub).length + 1 + stack.length ≤ TS_SERIALIZATION_BUFFER_SIZE) :
    razor_deserialize subDeser (razor_serialize subSer sub stack) = (sub, stack) := by
  have hb2 : 2 ≤ (subSer sub).length := by omega
  have hser : razor_serialize subSer sub stack =
      subSer sub ++ [stack.length % 256] ++ stack.reverse.map (· % 256) := by
    unfold razor_serialize
    rw [if_neg (by omega)]
  have hmod : stack.length % 256 = stack.length := Nat.mod_eq_of_lt (by omega)
  have hmap : stack.reverse.map (· % 256) = stack.reverse := by
    have h1 : ∀ x ∈ stack.reverse, x % 256 = x := fun x hx =>
      Nat.mod_eq_of_lt (helts x (List.mem_reverse.mp hx))
    calc stack.reverse.map (· % 256) = stack.reverse.map id := List.map_congr_left h1
    _ = stack.reverse := List.map_id stack.reverse
  rw [hser, hmod, hmap]
  have hshape : subSer sub ++ [stack.length] ++ stack.reverse =
      subSer sub ++ ([stack.length] ++ stack.reverse) := by rw [List.append_assoc]
  rw [hshape]
  simp only [razor_deserialize]
  rw [if_neg (by simp)]
  have hg1 : (subSer sub ++ ([stack.length] ++ stack.reverse)).getD 1 0 =
      (subSer sub).getD 1 0 := by
    unfold List.getD
    rw [List.get?_append (by omega)]
  rw [hg1, ← hblob]
  rw [List.take_left]
  rw [hround]
  rw [if_pos (by simp only [List.length_append, List.length_cons, List.length_nil]; omega)]
  have hgd : (subSer sub ++ ([stack.length] ++ stack.reverse)).getD (subSer sub).length 0 =
      stack.length := by
    unfold List.getD
    rw [List.get?_append_right (by omega)]
    simp
  rw [hgd]
  have hdrop : (subSer sub ++ ([stack.length] ++ stack.reverse)).drop ((subSer sub).length + 1) =
      stack.reverse := by
    rw [← List.append_assoc]
    have hl : (subSer sub ++ [stack.length]).length = (subSer sub).length + 1 := by simp
    rw [← hl, List.drop_left]
  rw [hdrop]
  have htake : (stack.reverse).take stack.length = stack.reverse := by
    rw [List.take_of_length_le (by simp)]
  rw [htake, List.reverse_reverse]

/-- A sub-scanner-state model for the serialization claims: state N has the
documented blob layout, one quote byte, the count N at index 1, then 4N data
bytes. -/
def bigBlobSer : Nat → List Nat := fun n => 0 :: n :: List.replicate (4 * n) 0

/-- The matching sub-scanner deserializer: read the count back from index 1. -/
def blobDeser : List Nat → Nat := fun b => b.getD 1 0

theorem claimC7_witness :
    razor_deserialize blobDeser (razor_serialize bigBlobSer 1 [2, 1]) = (1, [2, 1]) :=
  claimC7 bigBlobSer blobDeser 1 [2, 1] (by decide) (by decide) (by decide)
    (by decide) (by decide)

/-- Counterexample to claim C7 as stated: a depth-255 stack together with a
maximal well-formed sub-scanner blob (N = 255, 1022 bytes) overflows the
1024-byte host buffer, serialize returns the zero-length result, and the
round trip loses the whole state instead of reproducing it. -/
theorem claimC7_counterexample :
    (bigBlobSer 255).length = 2 + (bigBlobSer 255).getD 1 0 * 4 ∧
    blobDeser (bigBlobSer 255) = 255 ∧
    (List.replicate 255 CONTEXT_CSHARP_BRACE).length = 255 ∧
    razor_serialize bigBlobSer 255 (List.replicate 255 CONTEXT_CSHARP_BRACE) = [] ∧
    razor_deserialize blobDeser
        (razor_serialize bigBlobSer 255 (List.replicate 255 CONTEXT_CSHARP_BRACE)) ≠
      (255, List.replicate 255 CONTEXT_CSHARP_BRACE) := by
  have hlen1 : (bigBlobSer 255).length = 1022 := by
    unfold bigBlobSer
    simp only [List.length_cons, List.length_replicate]
  have hlen2 : (List.replicate 255 CONTEXT_CSHARP_BRACE).length = 255 :=
    List.length_replicate 255 CONTEXT_CSHARP_BRACE
  have hser0 : razor_serialize bigBlobSer 255 (List.replicate 255 CONTEXT_CSHARP_BRACE) = [] := by
    unfold razor_serialize
    rw [if_pos (by rw [hlen1, hlen2]; decide)]
  refine ⟨?_, rfl, hlen2, hser0, ?_⟩
  · rw [hlen1]
    have hg : (bigBlobSer 255).getD 1 0 = 255 := rfl
    rw [hg]
  · rw [hser0]
    have hdes : razor_deserialize blobDeser [] = (0, []) := rfl
    rw [hdes]
    intro h
    have h1 : (0 : Nat) = 255 := congrArg Prod.fst h
    exact absurd h1 (by decide)

/-- Claim C4 as stated is half right: with HTML_TEXT_CONTENT admissible and
the mode stack empty, "else foo" at the logical start of a line declines
(empty-match refusal).  But on "x else foo" the keyword check never fires
because it only applies at line start and 'else' there is mid-line: the scan
commits HTML_TEXT_CONTENT covering the whole "x else foo" (see the
counterexample).  Amended claim: "else foo" declines; "x else foo" commits
HTML_TEXT_CONTENT covering the entire "x else foo"; with the keyword again at
line start, "x\nelse foo" commits HTML_TEXT_CONTENT covering exactly "x\n",
stopping before the keyword. -/
theorem claimC4 {σ : Type} (subScan : σ → Lexer → (Nat → Bool) → Option Nat × σ × Lexer)
    (sub : σ) :
    (razorScan subScan sub [] (mkLexer "else foo".toList) (onlyKind HTML_TEXT_CONTENT)).1 =
      none ∧
    ((razorScan subScan sub [] (mkLexer "x else foo".toList) (onlyKind HTML_TEXT_CONTENT)).1 =
      some HTML_TEXT_CONTENT ∧
     (razorScan subScan sub [] (mkLexer "x else foo".toList)
        (onlyKind HTML_TEXT_CONTENT)).2.2.2.token = "x else foo".toList) ∧
    ((razorScan subScan sub [] (mkLexer ('x' :: '\n' :: "else foo".toList))
        (onlyKind HTML_TEXT_CONTENT)).1 = some HTML_TEXT_CONTENT ∧
     (razorScan subScan sub [] (mkLexer ('x' :: '\n' :: "else foo".toList))
        (onlyKind HTML_TEXT_CONTENT)).2.2.2.token = ['x', '\n']) :=
  ⟨rfl, ⟨rfl, rfl⟩, ⟨rfl, rfl⟩⟩

/-- Counterexample to claim C4 as stated: on "x else foo" the committed
HTML_TEXT_CONTENT token covers the whole input, not just "x ". -/
theorem claimC4_counterexample :
    (razorScan declineSub () [] (mkLexer "x else foo".toList) (onlyKind HTML_TEXT_CONTENT)).1 =
      some HTML_TEXT_CONTENT ∧
    (razorScan declineSub () [] (mkLexer "x else foo".toList)
       (onlyKind HTML_TEXT_CONTENT)).2.2.2.token = "x else foo".toList ∧
    (razorScan declineSub () [] (mkLexer "x else foo".toList)
       (onlyKind HTML_TEXT_CONTENT)).2.2.2.token ≠ "x ".toList :=
  ⟨rfl, rfl, by decide⟩

/- Two more family pass lemmas, for a non-whitespace lookahead that matches
neither an opening brace nor a closer. -/

lemma blockOpen_pass_char {v : Nat → Bool} {s : List Nat} {l : Lexer} {c : Char}
    (h : l.lookahead = some c) (hws : is_wspace c = false) (hc : c ≠ lbrace) :
    scanRazorBlockOpen v s l = Step.next s l := by
  have hskip : skipWsLoop (l.input.length + 1) l = l :=
    skipWsLoop_nonws (Nat.succ_pos _) h hws
  simp only [scanRazorBlockOpen, hskip, h]
  split
  · rw [if_neg (by simp [hc])]
  · rfl

lemma contextClose_pass_char {v : Nat → Bool} {s : List Nat} {l : Lexer} {c : Char}
    (h : l.lookahead = some c) (hws : is_wspace c = false) (hbr : c ≠ rbrace)
    (hpr : c ≠ ')') :
    scanContextClose v s l = Step.next s l := by
  have hskip : skipWsLoop (l.input.length + 1) l = l :=
    skipWsLoop_nonws (Nat.succ_pos _) h hws
  simp only [scanContextClose, hskip, h]
  split
  · split
    · rw [if_neg (by simp [hbr, hpr])]
    · rfl
  · rfl

/-- Claim C5: for each of the four raw-content token kinds, whenever one of
them is admissible and the very first lookahead character is an opening angle
bracket, the whole scan declines: no raw-content token beginning with an
angle bracket is ever committed, even when the bracket does not start a
matching closing tag. -/
theorem claimC5 {σ : Type} (subScan : σ → Lexer → (Nat → Bool) → Option Nat × σ × Lexer)
    (sub : σ) (stack : List Nat) (lex : Lexer) (valid : Nat → Bool)
    (hlt : lex.lookahead = some '<')
    (hv : valid SCRIPT_CONTENT = true ∨ valid STYLE_CONTENT = true ∨
          valid TITLE_CONTENT = true ∨ valid TEXTAREA_CONTENT = true) :
    (razorScan subScan sub stack lex valid).1 = none := by
  rw [dispatch_textAt_next (textAt_break hlt (Or.inl rfl)),
      dispatch_html_next (htmlText_break hlt (Or.inl rfl)),
      dispatch_atOpen_next (atOpen_notAt (by rw [hlt]; simp)),
      dispatch_blockOpen_next (blockOpen_pass_char hlt (by decide) (by decide)),
      dispatch_close_next (contextClose_pass_char hlt (by decide) (by decide) (by decide)),
      dispatch_comment_next (comment_notSlash (by rw [hlt]; simp)),
      dispatch_preproc_next (preproc_notHash (by rw [hlt]; simp))]
  cases hv20 : valid SCRIPT_CONTENT with
  | true =>
    rcases @raw_lt ("script".toList) _ valid stack lex hv20 hlt with ⟨heq, -⟩ | ⟨heq, -⟩ <;>
      rw [dispatch_script_done heq]
  | false =>
    rw [dispatch_script_next (raw_invalid hv20)]
    cases hv21 : valid STYLE_CONTENT with
    | true =>
      rcases @raw_lt ("style".toList) _ valid stack lex hv21 hlt with ⟨heq, -⟩ | ⟨heq, -⟩ <;>
        rw [dispatch_style_done heq]
    | false =>
      rw [dispatch_style_next (raw_invalid hv21)]
      cases hv22 : valid TITLE_CONTENT with
      | true =>
        rcases @raw_lt ("title".toList) _ valid stack lex hv22 hlt with ⟨heq, -⟩ | ⟨heq, -⟩ <;>
          rw [dispatch_title_done heq]
      | false =>
        rw [dispatch_title_next (raw_invalid hv22)]
        cases hv23 : valid TEXTAREA_CONTENT with
        | true =>
          rcases @raw_lt ("textarea".toList) _ valid stack lex hv23 hlt with ⟨heq, -⟩ | ⟨heq, -⟩ <;>
            rw [dispatch_textarea_done heq]
        | false =>
          rcases hv with h | h | h | h <;> simp_all

theorem claimC5_witness :
    (razorScan declineSub () [] (mkLexer ['<', 'a']) (onlyKind SCRIPT_CONTENT)).1 = none :=
  claimC5 declineSub () [] (mkLexer ['<', 'a']) (onlyKind SCRIPT_CONTENT) rfl (Or.inl rfl)

/- Helper lemmas for the mode-transition scenarios. -/

lemma atOpen_commitBrace {v : Nat → Bool} {s : List Nat} {l : Lexer}
    (hv : v CSHARP_CODE_BLOCK_START = true)
    (h0 : l.lookahead = some '@') (h1 : l.advance.lookahead = some lbrace) :
    scanAtOpen v s l = Step.done (some CSHARP_CODE_BLOCK_START) (CONTEXT_CSHARP_BRACE :: s)
      l.advance.advance := by
  simp [scanAtOpen, hv, h0, h1]

lemma atOpen_commitParen {v : Nat → Bool} {s : List Nat} {l : Lexer}
    (hv : v CSHARP_EXPLICIT_EXPR_START = true)
    (h0 : l.lookahead = some '@') (h1 : l.advance.lookahead = some '(') :
    scanAtOpen v s l = Step.done (some CSHARP_EXPLICIT_EXPR_START) (CONTEXT_CSHARP_PAREN :: s)
      l.advance.advance := by
  have hne : ('(' : Char) ≠ lbrace := by decide
  simp [scanAtOpen, hv, h0, h1, hne]

lemma lookahead_ne_of_ws_cons {l : Lexer} {ws r : List Char} {c : Char}
    (hd : l.input.drop l.pos = ws ++ c :: r) (hws : ∀ x ∈ ws, is_wspace x = true)
    {a : Char} (ha : is_wspace a = false) (hca : c ≠ a) : l.lookahead ≠ some a := by
  cases ws with
  | nil =>
    rw [lookahead_of_drop (l := l) (by simpa using hd)]
    simp [hca]
  | cons w t =>
    rw [lookahead_of_drop (l := l) (by simpa using hd)]
    intro hEq
    have hwa : w = a := by simpa using hEq
    subst hwa
    rw [hws w (by simp)] at ha
    exact absurd ha (by simp)

/-- The opening-bracket push scenario for the @-open family, on the whole
dispatcher: a braced opener commits and pushes one brace tag. -/
lemma razorScan_atBrace {σ : Type} (subScan : σ → Lexer → (Nat → Bool) → Option Nat × σ × Lexer)
    (sub : σ) (stack : List Nat) (rest : List Char) (valid : Nat → Bool)
    (hv : valid CSHARP_CODE_BLOCK_START = true) :
    razorScan subScan sub stack (mkLexer ('@' :: lbrace :: rest)) valid =
      (some CSHARP_CODE_BLOCK_START, sub, CONTEXT_CSHARP_BRACE :: stack,
       (mkLexer ('@' :: lbrace :: rest)).advance.advance) := by
  have h0 : (mkLexer ('@' :: lbrace :: rest)).lookahead = some '@' := rfl
  have h1 : (mkLexer ('@' :: lbrace :: rest)).advance.lookahead = some lbrace := rfl
  rw [dispatch_textAt_next (textAt_break h0 (Or.inr (Or.inr (Or.inr rfl)))),
      dispatch_html_next (htmlText_break h0 (Or.inr rfl)),
      dispatch_atOpen_done (atOpen_commitBrace hv h0 h1)]

/-- Symmetric scenario for a parenthesized opener. -/
lemma razorScan_atParen {σ : Type} (subScan : σ → Lexer → (Nat → Bool) → Option Nat × σ × Lexer)
    (sub : σ) (stack : List Nat) (rest : List Char) (valid : Nat → Bool)
    (hv : valid CSHARP_EXPLICIT_EXPR_START = true) :
    razorScan subScan sub stack (mkLexer ('@' :: '(' :: rest)) valid =
      (some CSHARP_EXPLICIT_EXPR_START, sub, CONTEXT_CSHARP_PAREN :: stack,
       (mkLexer ('@' :: '(' :: rest)).advance.advance) := by
  have h0 : (mkLexer ('@' :: '(' :: rest)).lookahead = some '@' := rfl
  have h1 : (mkLexer ('@' :: '(' :: rest)).advance.lookahead = some '(' := rfl
  rw [dispatch_textAt_next (textAt_break h0 (Or.inr (Or.inr (Or.inr rfl)))),
      dispatch_html_next (htmlText_break h0 (Or.inr rfl)),
      dispatch_atOpen_done (atOpen_commitParen hv h0 h1)]

/-- The close scenario on the whole dispatcher: with a singleton stack whose
tag matches the first non-whitespace character, the scan commits
CSHARP_CONTEXT_CLOSE and empties the stack. -/
lemma razorScan_closes {σ : Type} (subScan : σ → Lexer → (Nat → Bool) → Option Nat × σ × Lexer)
    (sub : σ) (t : Nat) (cl : Char) (ws rest : List Char) (valid : Nat → Bool)
    (hv17 : valid CSHARP_CONTEXT_CLOSE = true)
    (hws : ∀ x ∈ ws, is_wspace x = true)
    (hm : (t = CONTEXT_CSHARP_BRACE ∧ cl = rbrace) ∨ (t = CONTEXT_CSHARP_PAREN ∧ cl = ')')) :
    (razorScan subScan sub [t] (mkLexer (ws ++ cl :: rest)) valid).1 =
      some CSHARP_CONTEXT_CLOSE ∧
    (razorScan subScan sub [t] (mkLexer (ws ++ cl :: rest)) valid).2.2.1 = [] := by
  have hclw : is_wspace cl = false := by
    rcases hm with ⟨-, hc⟩ | ⟨-, hc⟩ <;> subst hc <;> decide
  have hclA : cl ≠ '@' := by
    rcases hm with ⟨-, hc⟩ | ⟨-, hc⟩ <;> subst hc <;> decide
  have hclB : cl ≠ lbrace := by
    rcases hm with ⟨-, hc⟩ | ⟨-, hc⟩ <;> subst hc <;> decide
  have hd : (mkLexer (ws ++ cl :: rest)).input.drop (mkLexer (ws ++ cl :: rest)).pos =
      ws ++ cl :: rest := by simp [mkLexer]
  have hlenw : ws.length < (mkLexer (ws ++ cl :: rest)).input.length + 1 := by
    simp only [mkLexer, List.length_append, List.length_cons]
    omega
  have hskip : skipWsLoop ((mkLexer (ws ++ cl :: rest)).input.length + 1)
      (mkLexer (ws ++ cl :: rest)) =
      (⟨ws ++ cl :: rest, ws.length, ws.length, none⟩ : Lexer) := by
    have h := skipWsLoop_skips ws (mkLexer (ws ++ cl :: rest)) _ rfl hd hws hclw hlenw
    simpa [mkLexer] using h
  have hsla : ((⟨ws ++ cl :: rest, ws.length, ws.length, none⟩ : Lexer)).lookahead =
      some cl :=
    lookahead_of_drop (l := ⟨ws ++ cl :: rest, ws.length, ws.length, none⟩)
      (List.drop_left ws (cl :: rest))
  have hctx : in_csharp_context [t] = true := rfl
  have hmatch : ∀ l' : Lexer, skipWsLoop (l'.input.length + 1) l' =
      (⟨ws ++ cl :: rest, ws.length, ws.length, none⟩ : Lexer) →
      (t = CONTEXT_CSHARP_BRACE ∧
        (skipWsLoop (l'.input.length + 1) l').lookahead = some rbrace) ∨
      (t = CONTEXT_CSHARP_PAREN ∧
        (skipWsLoop (l'.input.length + 1) l').lookahead = some ')') := by
    intro l' hsk
    rcases hm with ⟨ht, hc⟩ | ⟨ht, hc⟩
    · exact Or.inl ⟨ht, by rw [hsk, hsla, hc]⟩
    · exact Or.inr ⟨ht, by rw [hsk, hsla, hc]⟩
  rw [dispatch_textAt_next (textAt_ctx hctx),
      dispatch_html_next (htmlText_ctx hctx),
      dispatch_atOpen_next (atOpen_notAt (lookahead_ne_of_ws_cons hd hws (by decide) hclA))]
  cases hv16 : valid RAZOR_BLOCK_OPEN with
  | false =>
    rw [dispatch_blockOpen_next (blockOpen_invalid hv16),
        dispatch_close_done (contextClose_commit hv17 (hmatch _ hskip))]
    exact ⟨rfl, rfl⟩
  | true =>
    rw [dispatch_blockOpen_next (blockOpen_pass hv16 (by rw [hskip, hsla]; simp [hclB])),
        hskip]
    have hskip2 : skipWsLoop
        (((⟨ws ++ cl :: rest, ws.length, ws.length, none⟩ : Lexer)).input.length + 1)
        (⟨ws ++ cl :: rest, ws.length, ws.length, none⟩ : Lexer) =
        (⟨ws ++ cl :: rest, ws.length, ws.length, none⟩ : Lexer) :=
      skipWsLoop_nonws (Nat.succ_pos _) hsla hclw
    rw [dispatch_close_done (contextClose_commit hv17 (hmatch _ hskip2))]
    exact ⟨rfl, rfl⟩

/-- Claim C2: when CSHARP_CODE_BLOCK_START is admissible, input beginning
with an at sign and opening brace commits CSHARP_CODE_BLOCK_START and pushes
exactly one brace tag; afterwards, with the stack at depth 1 and
CSHARP_CONTEXT_CLOSE admissible, the first closing brace, possibly preceded
by whitespace, commits CSHARP_CONTEXT_CLOSE and restores the stack to empty;
symmetrically for the at sign with opening parenthesis (pushing one
parenthesis tag) closed by a closing parenthesis. -/
theorem claimC2 :
    (∀ {σ : Type} (subScan : σ → Lexer → (Nat → Bool) → Option Nat × σ × Lexer)
       (sub : σ) (stack : List Nat) (rest : List Char) (valid : Nat → Bool),
       valid CSHARP_CODE_BLOCK_START = true →
       (razorScan subScan sub stack (mkLexer ('@' :: lbrace :: rest)) valid).1 =
         some CSHARP_CODE_BLOCK_START ∧
       (razorScan subScan sub stack (mkLexer ('@' :: lbrace :: rest)) valid).2.2.1 =
         CONTEXT_CSHARP_BRACE :: stack) ∧
    (∀ {σ : Type} (subScan : σ → Lexer → (Nat → Bool) → Option Nat × σ × Lexer)
       (sub : σ) (ws rest : List Char) (valid : Nat → Bool),
       valid CSHARP_CONTEXT_CLOSE = true → (∀ x ∈ ws, is_wspace x = true) →
       (razorScan subScan sub [CONTEXT_CSHARP_BRACE]
          (mkLexer (ws ++ rbrace :: rest)) valid).1 = some CSHARP_CONTEXT_CLOSE ∧
       (razorScan subScan sub [CONTEXT_CSHARP_BRACE]
          (mkLexer (ws ++ rbrace :: rest)) valid).2.2.1 = []) ∧
    (∀ {σ : Type} (subScan : σ → Lexer → (Nat → Bool) → Option Nat × σ × Lexer)
       (sub : σ) (stack : List Nat) (rest : List Char) (valid : Nat → Bool),
       valid CSHARP_EXPLICIT_EXPR_START = true →
       (razorScan subScan sub stack (mkLexer ('@' :: '(' :: rest)) valid).1 =
         some CSHARP_EXPLICIT_EXPR_START ∧
       (razorScan subScan sub stack (mkLexer ('@' :: '(' :: rest)) valid).2.2.1 =
         CONTEXT_CSHARP_PAREN :: stack) ∧
    (∀ {σ : Type} (subScan : σ → Lexer → (Nat → Bool) → Option Nat × σ × Lexer)
       (sub : σ) (ws rest : List Char) (valid : Nat → Bool),
       valid CSHARP_CONTEXT_CLOSE = true → (∀ x ∈ ws, is_wspace x = true) →
       (razorScan subScan sub [CONTEXT_CSHARP_PAREN]
          (mkLexer (ws ++ ')' :: rest)) valid).1 = some CSHARP_CONTEXT_CLOSE ∧
       (razorScan subScan sub [CONTEXT_CSHARP_PAREN]
          (mkLexer (ws ++ ')' :: rest)) valid).2.2.1 = []) := by
  refine ⟨?_, ?_, ?_, ?_⟩
  · intro σ subScan sub stack rest valid hv
    rw [razorScan_atBrace subScan sub stack rest valid hv]
    exact ⟨rfl, rfl⟩
  · intro σ subScan sub ws rest valid hv hws
    exact razorScan_closes subScan sub CONTEXT_CSHARP_BRACE rbrace ws rest valid hv hws
      (Or.inl ⟨rfl, rfl⟩)
  · intro σ subScan sub stack rest valid hv
    rw [razorScan_atParen subScan sub stack rest valid hv]
    exact ⟨rfl, rfl⟩
  · intro σ subScan sub ws rest valid hv hws
    exact razorScan_closes subScan sub CONTEXT_CSHARP_PAREN ')' ws rest valid hv hws
      (Or.inr ⟨rfl, rfl⟩)

theorem claimC2_witness :
    (razorScan declineSub () [] (mkLexer ('@' :: lbrace :: ['x'])) (fun _ => true)).1 =
      some CSHARP_CODE_BLOCK_START ∧
    (razorScan declineSub () [CONTEXT_CSHARP_BRACE]
       (mkLexer ([' '] ++ rbrace :: ['x'])) (fun _ => true)).2.2.1 = [] ∧
    (razorScan declineSub () [] (mkLexer ('@' :: '(' :: ['x'])) (fun _ => true)).1 =
      some CSHARP_EXPLICIT_EXPR_START ∧
    (razorScan declineSub () [CONTEXT_CSHARP_PAREN]
       (mkLexer ([' '] ++ ')' :: ['x'])) (fun _ => true)).2.2.1 = [] :=
  ⟨(claimC2.1 declineSub () [] ['x'] (fun _ => true) rfl).1,
   (claimC2.2.1 declineSub () [' '] ['x'] (fun _ => true) rfl (by decide)).2,
   (claimC2.2.2.1 declineSub () [] ['x'] (fun _ => true) rfl).1,
   (claimC2.2.2.2 declineSub () [' '] ['x'] (fun _ => true) rfl (by decide)).2⟩

/- ------------------------------------------------------------------
Raw-content commit scenario (claim C6)
------------------------------------------------------------------ -/

/-- ASCII case-variant check matching the scanner's letter test: each
character equals the expected tag letter or that letter minus 32. -/
def caseVar : List Char → List Char → Bool
  | [], [] => true
  | c :: v, t :: tg => (decide (c = t) || decide (c.toNat = t.toNat - 32)) && caseVar v tg
  | _, _ => false

lemma matchTagLoop_caseVar : ∀ (tag v : List Char) (l : Lexer) (r : List Char),
    caseVar v tag = true → l.input.drop l.pos = v ++ r →
    matchTagLoop tag l = (true, { l with pos := l.pos + tag.length }) := by
  intro tag
  induction tag with
  | nil =>
    intro v l r hv hd
    cases v with
    | nil =>
      simp only [matchTagLoop, List.length_nil]
      cases l
      simp
    | cons c vs => simp [caseVar] at hv
  | cons t tg ih =>
    intro v l r hv hd
    cases v with
    | nil => simp [caseVar] at hv
    | cons c vs =>
      simp only [caseVar, Bool.and_eq_true] at hv
      have hl : l.lookahead = some c := lookahead_of_drop (by simpa using hd)
      have hd2 : l.advance.input.drop l.advance.pos = vs ++ r := by
        simp only [advance_input, advance_pos]
        exact drop_succ_of_drop (by simpa using hd)
      simp only [matchTagLoop, hl]
      rw [if_pos hv.1]
      rw [ih vs l.advance r hv.2 hd2]
      cases l
      simp [Lexer.advance, List.length_cons]
      omega

lemma rawLoop_stepChar {tag : List Char} {fuel : Nat} {l : Lexer} {hc : Bool} {c : Char}
    (h : l.lookahead = some c) (hlt : c ≠ '<') (hf : 0 < fuel) :
    rawContentLoop tag fuel l hc = rawContentLoop tag (fuel - 1) l.advance.markEnd true := by
  cases fuel with
  | zero => omega
  | succ f =>
    simp only [rawContentLoop, h]
    rw [if_neg hlt]
    rfl

lemma rawLoop_close {tag : List Char} {fuel : Nat} {l : Lexer} {hc : Bool}
    (h : l.lookahead = some '<')
    (hs : l.markEnd.advance.lookahead = some '/')
    (hm1 : (matchTagLoop tag l.markEnd.advance.advance).1 = true)
    (hf : 0 < fuel) :
    rawContentLoop tag fuel l hc = (hc, (matchTagLoop tag l.markEnd.advance.advance).2) := by
  cases fuel with
  | zero => omega
  | succ f =>
    simp only [rawContentLoop, h, hs, hm1, if_true]

/-- The raw-content family on input "abc" + closing tag in any ASCII case
variant: commits the content token covering exactly "abc", with the marked
end just before the angle bracket. -/
lemma scanRaw_commits (tag : List Char) (sym : Nat) (v : Nat → Bool) (s : List Nat)
    (cv rest : List Char) (hv : v sym = true) (hcv : caseVar cv tag = true) :
    scanRawContent tag sym v s
        (mkLexer ('a' :: 'b' :: 'c' :: '<' :: '/' :: (cv ++ '>' :: rest))) =
      Step.done (some sym) s
        ⟨'a' :: 'b' :: 'c' :: '<' :: '/' :: (cv ++ '>' :: rest), 5 + tag.length, 0, some 3⟩ := by
  have hlen : (mkLexer ('a' :: 'b' :: 'c' :: '<' :: '/' :: (cv ++ '>' :: rest))).input.length =
      5 + (cv ++ '>' :: rest).length := by
    simp [mkLexer]
    omega
  have ha : (mkLexer ('a' :: 'b' :: 'c' :: '<' :: '/' :: (cv ++ '>' :: rest))).lookahead =
      some 'a' := rfl
  have hmt := matchTagLoop_caseVar tag cv
    (⟨'a' :: 'b' :: 'c' :: '<' :: '/' :: (cv ++ '>' :: rest), 5, 0, some 3⟩ : Lexer)
    ('>' :: rest) hcv (by simpa using (List.drop_left cv ('>' :: rest)))
  have hloop : rawContentLoop tag
      ((mkLexer ('a' :: 'b' :: 'c' :: '<' :: '/' :: (cv ++ '>' :: rest))).input.length + 1)
      (mkLexer ('a' :: 'b' :: 'c' :: '<' :: '/' :: (cv ++ '>' :: rest))) false =
      (true, ⟨'a' :: 'b' :: 'c' :: '<' :: '/' :: (cv ++ '>' :: rest),
              5 + tag.length, 0, some 3⟩) := by
    rw [rawLoop_stepChar ha (by decide) (Nat.succ_pos _)]
    rw [show ((mkLexer ('a' :: 'b' :: 'c' :: '<' :: '/' :: (cv ++ '>' :: rest))).advance.markEnd :
        Lexer) = ⟨'a' :: 'b' :: 'c' :: '<' :: '/' :: (cv ++ '>' :: rest), 1, 0, some 1⟩ from rfl]
    rw [rawLoop_stepChar
      (show ((⟨'a' :: 'b' :: 'c' :: '<' :: '/' :: (cv ++ '>' :: rest), 1, 0, some 1⟩ :
        Lexer)).lookahead = some 'b' from rfl) (by decide) (by omega)]
    rw [show ((⟨'a' :: 'b' :: 'c' :: '<' :: '/' :: (cv ++ '>' :: rest), 1, 0, some 1⟩ :
        Lexer).advance.markEnd : Lexer) =
        ⟨'a' :: 'b' :: 'c' :: '<' :: '/' :: (cv ++ '>' :: rest), 2, 0, some 2⟩ from rfl]
    rw [rawLoop_stepChar
      (show ((⟨'a' :: 'b' :: 'c' :: '<' :: '/' :: (cv ++ '>' :: rest), 2, 0, some 2⟩ :
        Lexer)).lookahead = some 'c' from rfl) (by decide) (by omega)]
    rw [show ((⟨'a' :: 'b' :: 'c' :: '<' :: '/' :: (cv ++ '>' :: rest), 2, 0, some 2⟩ :
        Lexer).advance.markEnd : Lexer) =
        ⟨'a' :: 'b' :: 'c' :: '<' :: '/' :: (cv ++ '>' :: rest), 3, 0, some 3⟩ from rfl]
    rw [rawLoop_close
      (show ((⟨'a' :: 'b' :: 'c' :: '<' :: '/' :: (cv ++ '>' :: rest), 3, 0, some 3⟩ :
        Lexer)).lookahead = some '<' from rfl)
      (show ((⟨'a' :: 'b' :: 'c' :: '<' :: '/' :: (cv ++ '>' :: rest), 3, 0, some 3⟩ :
        Lexer).markEnd.advance).lookahead = some '/' from rfl)
      (by
        rw [show ((⟨'a' :: 'b' :: 'c' :: '<' :: '/' :: (cv ++ '>' :: rest), 3, 0, some 3⟩ :
          Lexer).markEnd.advance.advance : Lexer) =
          ⟨'a' :: 'b' :: 'c' :: '<' :: '/' :: (cv ++ '>' :: rest), 5, 0, some 3⟩ from rfl, hmt])
      (by omega)]
    rw [show ((⟨'a' :: 'b' :: 'c' :: '<' :: '/' :: (cv ++ '>' :: rest), 3, 0, some 3⟩ :
        Lexer).markEnd.advance.advance : Lexer) =
        ⟨'a' :: 'b' :: 'c' :: '<' :: '/' :: (cv ++ '>' :: rest), 5, 0, some 3⟩ from rfl, hmt]
  simp only [scanRawContent]
  rw [if_pos hv]
  rw [if_neg (show ¬(mkLexer ('a' :: 'b' :: 'c' :: '<' :: '/' :: (cv ++ '>' :: rest))).lookahead =
      some '<' by rw [ha]; simp)]
  rw [hloop]
  rfl

/-- With none of the earlier Razor families admissible, the dispatcher
reaches the SCRIPT_CONTENT family with everything unchanged. -/
lemma razorScan_toScript {σ : Type} (subScan : σ → Lexer → (Nat → Bool) → Option Nat × σ × Lexer)
    (sub : σ) (stack : List Nat) (lex : Lexer) (valid : Nat → Bool)
    (h12 : valid TEXT_WITH_LITERAL_AT = false) (h13 : valid HTML_TEXT_CONTENT = false)
    (h14 : valid CSHARP_CODE_BLOCK_START = false) (h15 : valid CSHARP_EXPLICIT_EXPR_START = false)
    (h16 : valid RAZOR_BLOCK_OPEN = false) (h17 : valid CSHARP_CONTEXT_CLOSE = false)
    (h18 : valid CSHARP_COMMENT = false) (h19 : valid CSHARP_PREPROC = false) :
    razorScan subScan sub stack lex valid = razorScanFromScript subScan sub stack lex valid := by
  rw [dispatch_textAt_next (textAt_invalid h12),
      dispatch_html_next (htmlText_invalid h13),
      dispatch_atOpen_next (atOpen_invalid h14 h15),
      dispatch_blockOpen_next (blockOpen_invalid h16),
      dispatch_close_next (contextClose_invalid h17),
      dispatch_comment_next (comment_invalid h18),
      dispatch_preproc_next (preproc_invalid h19)]

/-- Claim C6: for each raw-content scanner instantiated with tag name N
(script, style, title, textarea), scanning "abc" followed by a closing tag
in any ASCII case variant of N commits the corresponding content token
covering exactly "abc", with the marked end exactly before the angle
bracket of the closing tag (position 3). -/
theorem claimC6 :
    (∀ {σ : Type} (subScan : σ → Lexer → (Nat → Bool) → Option Nat × σ × Lexer)
       (sub : σ) (stack : List Nat) (cv rest : List Char),
       caseVar cv ("script".toList) = true →
       (razorScan subScan sub stack (mkLexer ('a' :: 'b' :: 'c' :: '<' :: '/' ::
          (cv ++ '>' :: rest))) (onlyKind SCRIPT_CONTENT)).1 = some SCRIPT_CONTENT ∧
       (razorScan subScan sub stack (mkLexer ('a' :: 'b' :: 'c' :: '<' :: '/' ::
          (cv ++ '>' :: rest))) (onlyKind SCRIPT_CONTENT)).2.2.2.tokenEnd = 3 ∧
       (razorScan subScan sub stack (mkLexer ('a' :: 'b' :: 'c' :: '<' :: '/' ::
          (cv ++ '>' :: rest))) (onlyKind SCRIPT_CONTENT)).2.2.2.token = ['a', 'b', 'c']) ∧
    (∀ {σ : Type} (subScan : σ → Lexer → (Nat → Bool) → Option Nat × σ × Lexer)
       (sub : σ) (stack : List Nat) (cv rest : List Char),
       caseVar cv ("style".toList) = true →
       (razorScan subScan sub stack (mkLexer ('a' :: 'b' :: 'c' :: '<' :: '/' ::
          (cv ++ '>' :: rest))) (onlyKind STYLE_CONTENT)).1 = some STYLE_CONTENT ∧
       (razorScan subScan sub stack (mkLexer ('a' :: 'b' :: 'c' :: '<' :: '/' ::
          (cv ++ '>' :: rest))) (onlyKind STYLE_CONTENT)).2.2.2.tokenEnd = 3 ∧
       (razorScan subScan sub stack (mkLexer ('a' :: 'b' :: 'c' :: '<' :: '/' ::
          (cv ++ '>' :: rest))) (onlyKind STYLE_CONTENT)).2.2.2.token = ['a', 'b', 'c']) ∧
    (∀ {σ : Type} (subScan : σ → Lexer → (Nat → Bool) → Option Nat × σ × Lexer)
       (sub : σ) (stack : List Nat) (cv rest : List Char),
       caseVar cv ("title".toList) = true →
       (razorScan subScan sub stack (mkLexer ('a' :: 'b' :: 'c' :: '<' :: '/' ::
          (cv ++ '>' :: rest))) (onlyKind TITLE_CONTENT)).1 = some TITLE_CONTENT ∧
       (razorScan subScan sub stack (mkLexer ('a' :: 'b' :: 'c' :: '<' :: '/' ::
          (cv ++ '>' :: rest))) (onlyKind TITLE_CONTENT)).2.2.2.tokenEnd = 3 ∧
       (razorScan subScan sub stack (mkLexer ('a' :: 'b' :: 'c' :: '<' :: '/' ::
          (cv ++ '>' :: rest))) (onlyKind TITLE_CONTENT)).2.2.2.token = ['a', 'b', 'c']) ∧
    (∀ {σ : Type} (subScan : σ → Lexer → (Nat → Bool) → Option Nat × σ × Lexer)
       (sub : σ) (stack : List Nat) (cv rest : List Char),
       caseVar cv ("textarea".toList) = true →
       (razorScan subScan sub stack (mkLexer ('a' :: 'b' :: 'c' :: '<' :: '/' ::
          (cv ++ '>' :: rest))) (onlyKind TEXTAREA_CONTENT)).1 = some TEXTAREA_CONTENT ∧
       (razorScan subScan sub stack (mkLexer ('a' :: 'b' :: 'c' :: '<' :: '/' ::
          (cv ++ '>' :: rest))) (onlyKind TEXTAREA_CONTENT)).2.2.2.tokenEnd = 3 ∧
       (razorScan subScan sub stack (mkLexer ('a' :: 'b' :: 'c' :: '<' :: '/' ::
          (cv ++ '>' :: rest))) (onlyKind TEXTAREA_CONTENT)).2.2.2.token = ['a', 'b', 'c']) := by
  refine ⟨?_, ?_, ?_, ?_⟩
  · intro σ subScan sub stack cv rest hcv
    rw [razorScan_toScript subScan sub stack _ _ rfl rfl rfl rfl rfl rfl rfl rfl,
        dispatch_script_done (scanRaw_commits ("script".toList) SCRIPT_CONTENT
          (onlyKind SCRIPT_CONTENT) stack cv rest rfl hcv)]
    exact ⟨rfl, rfl, rfl⟩
  · intro σ subScan sub stack cv rest hcv
    rw [razorScan_toScript subScan sub stack _ _ rfl rfl rfl rfl rfl rfl rfl rfl,
        dispatch_script_next (raw_invalid (show onlyKind STYLE_CONTENT SCRIPT_CONTENT = false
          from rfl)),
        dispatch_style_done (scanRaw_commits ("style".toList) STYLE_CONTENT
          (onlyKind STYLE_CONTENT) stack cv rest rfl hcv)]
    exact ⟨rfl, rfl, rfl⟩
  · intro σ subScan sub stack cv rest hcv
    rw [razorScan_toScript subScan sub stack _ _ rfl rfl rfl rfl rfl rfl rfl rfl,
        dispatch_script_next (raw_invalid (show onlyKind TITLE_CONTENT SCRIPT_CONTENT = false
          from rfl)),
        dispatch_style_next (raw_invalid (show onlyKind TITLE_CONTENT STYLE_CONTENT = false
          from rfl)),
        dispatch_title_done (scanRaw_commits ("title".toList) TITLE_CONTENT
          (onlyKind TITLE_CONTENT) stack cv rest rfl hcv)]
    exact ⟨rfl, rfl, rfl⟩
  · intro σ subScan sub stack cv rest hcv
    rw [razorScan_toScript subScan sub stack _ _ rfl rfl rfl rfl rfl rfl rfl rfl,
        dispatch_script_next (raw_invalid (show onlyKind TEXTAREA_CONTENT SCRIPT_CONTENT = false
          from rfl)),
        dispatch_style_next (raw_invalid (show onlyKind TEXTAREA_CONTENT STYLE_CONTENT = false
          from rfl)),
        dispatch_title_next (raw_invalid (show onlyKind TEXTAREA_CONTENT TITLE_CONTENT = false
          from rfl)),
        dispatch_textarea_done (scanRaw_commits ("textarea".toList) TEXTAREA_CONTENT
          (onlyKind TEXTAREA_CONTENT) stack cv rest rfl hcv)]
    exact ⟨rfl, rfl, rfl⟩

theorem claimC6_witness :
    (razorScan declineSub () [] (mkLexer ('a' :: 'b' :: 'c' :: '<' :: '/' ::
       ("ScRiPt".toList ++ '>' :: "rest".toList))) (onlyKind SCRIPT_CONTENT)).1 =
      some SCRIPT_CONTENT ∧
    (razorScan declineSub () [] (mkLexer ('a' :: 'b' :: 'c' :: '<' :: '/' ::
       ("TEXTAREA".toList ++ '>' :: "rest".toList))) (onlyKind TEXTAREA_CONTENT)).2.2.2.token =
      ['a', 'b', 'c'] :=
  ⟨(claimC6.1 declineSub () [] ("ScRiPt".toList) ("rest".toList) (by decide)).1,
   (claimC6.2.2.2 declineSub () [] ("TEXTAREA".toList) ("rest".toList) (by decide)).2.2⟩

/- ------------------------------------------------------------------
Claim C3: context-close pops only on a matching closer
------------------------------------------------------------------ -/

lemma blockOpen_next_lex {v : Nat → Bool} {s : List Nat} {l : Lexer} {s' : List Nat} {l' : Lexer}
    (h : scanRazorBlockOpen v s l = Step.next s' l') :
    s' = s ∧ (l' = l ∨ l' = skipWsLoop (l.input.length + 1) l) := by
  simp only [scanRazorBlockOpen] at h
  split at h
  · split at h
    · simp_all
    · cases h
      exact ⟨rfl, Or.inr rfl⟩
  · cases h
    exact ⟨rfl, Or.inl rfl⟩

/-- From the comment family on, the dispatcher never reports
CSHARP_CONTEXT_CLOSE and never touches the stack. -/
lemma fromComment_no17 {σ : Type} (subScan : σ → Lexer → (Nat → Bool) → Option Nat × σ × Lexer)
    (hsub : ∀ (s : σ) (l : Lexer) (v : Nat → Bool) (k : Nat),
      (subScan s l v).1 = some k → k < CSHARP_TOKEN_COUNT)
    (sub : σ) (stack : List Nat) (lex : Lexer) (valid : Nat → Bool) :
    (razorScanFromComment subScan sub stack lex valid).1 ≠ some CSHARP_CONTEXT_CLOSE ∧
    (razorScanFromComment subScan sub stack lex valid).2.2.1 = stack := by
  cases h6 : scanCsharpComment valid stack lex with
  | done r s l =>
    rw [dispatch_comment_done h6]
    obtain ⟨hr, hs, -⟩ := comment_done h6
    subst hs
    rcases hr with rfl | rfl <;> exact ⟨by simp, rfl⟩
  | next s l =>
    have hs : stack = s := (comment_next h6).1.symm
    subst hs
    rw [dispatch_comment_next h6]
    cases h7 : scanCsharpPreproc valid stack l with
    | done r s2 l2 =>
      rw [dispatch_preproc_done h7]
      obtain ⟨rfl, hs2, -⟩ := preproc_done h7
      subst hs2
      exact ⟨by simp, rfl⟩
    | next s2 l2 =>
      have hs2 : stack = s2 := (preproc_next h7).1.symm
      subst hs2
      rw [dispatch_preproc_next h7]
      cases h8 : scanRawContent ("script".toList) SCRIPT_CONTENT valid stack l2 with
      | done r s3 l3 =>
        rw [dispatch_script_done h8]
        obtain ⟨hr, hs3⟩ := raw_done h8
        subst hs3
        rcases hr with rfl | rfl <;> exact ⟨by simp, rfl⟩
      | next s3 l3 =>
        have hs3 : stack = s3 := (raw_next h8).1.symm
        subst hs3
        rw [dispatch_script_next h8]
        cases h9 : scanRawContent ("style".toList) STYLE_CONTENT valid stack l3 with
        | done r s4 l4 =>
          rw [dispatch_style_done h9]
          obtain ⟨hr, hs4⟩ := raw_done h9
          subst hs4
          rcases hr with rfl | rfl <;> exact ⟨by simp, rfl⟩
        | next s4 l4 =>
          have hs4 : stack = s4 := (raw_next h9).1.symm
          subst hs4
          rw [dispatch_style_next h9]
          cases h10 : scanRawContent ("title".toList) TITLE_CONTENT valid stack l4 with
          | done r s5 l5 =>
            rw [dispatch_title_done h10]
            obtain ⟨hr, hs5⟩ := raw_done h10
            subst hs5
            rcases hr with rfl | rfl <;> exact ⟨by simp, rfl⟩
          | next s5 l5 =>
            have hs5 : stack = s5 := (raw_next h10).1.symm
            subst hs5
            rw [dispatch_title_next h10]
            cases h11 : scanRawContent ("textarea".toList) TEXTAREA_CONTENT valid stack l5 with
            | done r s6 l6 =>
              rw [dispatch_textarea_done h11]
              obtain ⟨hr, hs6⟩ := raw_done h11
              subst hs6
              rcases hr with rfl | rfl <;> exact ⟨by simp, rfl⟩
            | next s6 l6 =>
              have hs6 : stack = s6 := (raw_next h11).1.symm
              subst hs6
              rw [dispatch_textarea_next h11]
              constructor
              · intro hfin
                exact absurd (hsub sub l6 valid CSHARP_CONTEXT_CLOSE (by simpa using hfin))
                  (by decide)
              · rfl

/-- Claim C3: a CSHARP_CONTEXT_CLOSE pop happens only when the mode stack is
non-empty and the next non-whitespace character matches the tag on top
(closing brace for a brace region, closing parenthesis for a parenthesis
region); when the closer does not match the top tag, the scan declines for
that token with the mode stack unchanged, and the close family itself leaves
the closer unconsumed (only whitespace is skipped as trivia). -/
theorem claimC3 {σ : Type} (subScan : σ → Lexer → (Nat → Bool) → Option Nat × σ × Lexer)
    (hsub : ∀ (s : σ) (l : Lexer) (v : Nat → Bool) (k : Nat),
      (subScan s l v).1 = some k → k < CSHARP_TOKEN_COUNT)
    (sub : σ) (stack : List Nat) (ws r : List Char) (c : Char) (valid : Nat → Bool)
    (hws : ∀ x ∈ ws, is_wspace x = true) (hcw : is_wspace c = false) :
    ((razorScan subScan sub stack (mkLexer (ws ++ c :: r)) valid).1 =
        some CSHARP_CONTEXT_CLOSE →
      valid CSHARP_CONTEXT_CLOSE = true ∧
      ∃ rest0, (stack = CONTEXT_CSHARP_BRACE :: rest0 ∧ c = rbrace ∨
                stack = CONTEXT_CSHARP_PAREN :: rest0 ∧ c = ')') ∧
        (razorScan subScan sub stack (mkLexer (ws ++ c :: r)) valid).2.2.1 = rest0) ∧
    (∀ top rest0, stack = top :: rest0 → (c = rbrace ∨ c = ')') →
      ¬(top = CONTEXT_CSHARP_BRACE ∧ c = rbrace) →
      ¬(top = CONTEXT_CSHARP_PAREN ∧ c = ')') →
      valid CSHARP_CONTEXT_CLOSE = true →
      (razorScan subScan sub stack (mkLexer (ws ++ c :: r)) valid).1 ≠
        some CSHARP_CONTEXT_CLOSE ∧
      (razorScan subScan sub stack (mkLexer (ws ++ c :: r)) valid).2.2.1 = stack ∧
      scanContextClose valid stack (mkLexer (ws ++ c :: r)) =
        Step.next stack (⟨ws ++ c :: r, ws.length, ws.length, none⟩ : Lexer)) := by
  have hd : (mkLexer (ws ++ c :: r)).input.drop (mkLexer (ws ++ c :: r)).pos =
      ws ++ c :: r := by simp [mkLexer]
  have hlenw : ws.length < (mkLexer (ws ++ c :: r)).input.length + 1 := by
    simp only [mkLexer, List.length_append, List.length_cons]
    omega
  have hskip : skipWsLoop ((mkLexer (ws ++ c :: r)).input.length + 1)
      (mkLexer (ws ++ c :: r)) = (⟨ws ++ c :: r, ws.length, ws.length, none⟩ : Lexer) := by
    have h := skipWsLoop_skips ws (mkLexer (ws ++ c :: r)) _ rfl hd hws hcw hlenw
    simpa [mkLexer] using h
  have hsla : ((⟨ws ++ c :: r, ws.length, ws.length, none⟩ : Lexer)).lookahead = some c :=
    lookahead_of_drop (l := ⟨ws ++ c :: r, ws.length, ws.length, none⟩)
      (List.drop_left ws (c :: r))
  have hskip2 : skipWsLoop
      (((⟨ws ++ c :: r, ws.length, ws.length, none⟩ : Lexer)).input.length + 1)
      (⟨ws ++ c :: r, ws.length, ws.length, none⟩ : Lexer) =
      (⟨ws ++ c :: r, ws.length, ws.length, none⟩ : Lexer) :=
    skipWsLoop_nonws (Nat.succ_pos _) hsla hcw
  constructor
  · intro hA
    cases stack with
    | nil =>
      obtain ⟨-, -, -, h17m, -, -, -⟩ := razorScan_master subScan sub []
        (mkLexer (ws ++ c :: r)) valid _ rfl
      rcases h17m hA with ⟨-, hctx, -⟩ | ⟨l', hl⟩
      · exact absurd hctx (by simp [in_csharp_context])
      · rw [hl] at hA
        exact absurd (hsub sub l' valid CSHARP_CONTEXT_CLOSE (by simpa using hA)) (by decide)
    | cons top rest0 =>
      have hctx : in_csharp_context (top :: rest0) = true := rfl
      rw [dispatch_textAt_next (textAt_ctx hctx),
          dispatch_html_next (htmlText_ctx hctx)] at hA ⊢
      cases h3 : scanAtOpen valid (top :: rest0) (mkLexer (ws ++ c :: r)) with
      | done r3 s3 l3 =>
        rw [dispatch_atOpen_done h3] at hA
        rcases atOpen_done h3 with ⟨hr, -⟩ | ⟨hr, -⟩ | ⟨hr, -⟩ <;> subst hr <;> simp at hA
      | next s3 l3 =>
        obtain ⟨hs3, hl3⟩ := atOpen_next h3
        subst hs3 hl3
        rw [dispatch_atOpen_next h3] at hA ⊢
        cases h4 : scanRazorBlockOpen valid (top :: rest0) (mkLexer (ws ++ c :: r)) with
        | done r4 s4 l4 =>
          rw [dispatch_blockOpen_done h4] at hA
          obtain ⟨hr, -⟩ := blockOpen_done h4
          subst hr
          simp at hA
        | next s4 l4 =>
          obtain ⟨hs4, hl4⟩ := blockOpen_next_lex h4
          subst hs4
          rw [dispatch_blockOpen_next h4] at hA ⊢
          have hl4' : skipWsLoop (l4.input.length + 1) l4 =
              (⟨ws ++ c :: r, ws.length, ws.length, none⟩ : Lexer) := by
            rcases hl4 with rfl | rfl
            · exact hskip
            · rw [hskip]
              exact hskip2
          cases h5 : scanContextClose valid (top :: rest0) l4 with
          | done r5 s5 l5 =>
            rw [dispatch_close_done h5] at hA ⊢
            obtain ⟨hr5, hv17, t, hst, hmOr, -⟩ := contextClose_done h5
            rw [hl4', hsla] at hmOr
            injection hst with h1 h2
            refine ⟨hv17, s5, ?_, rfl⟩
            rcases hmOr with ⟨ht1, hcr⟩ | ⟨ht1, hcr⟩
            · exact Or.inl ⟨by rw [h1, ht1, h2], by simpa using hcr⟩
            · exact Or.inr ⟨by rw [h1, ht1, h2], by simpa using hcr⟩
          | next s5 l5 =>
            have hs5 : (top :: rest0) = s5 := (contextClose_next h5).symm
            subst hs5
            rw [dispatch_close_next h5] at hA
            exact absurd hA
              (fromComment_no17 subScan hsub sub (top :: rest0) l5 valid).1
  · intro top rest0 hstack hcl hnb hnp hv17
    subst hstack
    have hctx : in_csharp_context (top :: rest0) = true := rfl
    have hcA : c ≠ '@' := by rcases hcl with rfl | rfl <;> decide
    have hcB : c ≠ lbrace := by rcases hcl with rfl | rfl <;> decide
    have hat : (mkLexer (ws ++ c :: r)).lookahead ≠ some '@' :=
      lookahead_ne_of_ws_cons hd hws (by decide) hcA
    have hb : ¬(top = CONTEXT_CSHARP_BRACE ∧
        (skipWsLoop ((mkLexer (ws ++ c :: r)).input.length + 1)
          (mkLexer (ws ++ c :: r))).lookahead = some rbrace) := by
      rw [hskip, hsla]
      rintro ⟨h1, h2⟩
      exact hnb ⟨h1, by simpa using h2⟩
    have hp : ¬(top = CONTEXT_CSHARP_PAREN ∧
        (skipWsLoop ((mkLexer (ws ++ c :: r)).input.length + 1)
          (mkLexer (ws ++ c :: r))).lookahead = some ')') := by
      rw [hskip, hsla]
      rintro ⟨h1, h2⟩
      exact hnp ⟨h1, by simpa using h2⟩
    have hmm := @contextClose_mismatch valid top rest0 (mkLexer (ws ++ c :: r)) hv17 hb hp
    have hstage : scanContextClose valid (top :: rest0) (mkLexer (ws ++ c :: r)) =
        Step.next (top :: rest0) (⟨ws ++ c :: r, ws.length, ws.length, none⟩ : Lexer) := by
      rw [hmm, hskip]
    rw [dispatch_textAt_next (textAt_ctx hctx),
        dispatch_html_next (htmlText_ctx hctx),
        dispatch_atOpen_next (atOpen_notAt hat)]
    cases hv16 : valid RAZOR_BLOCK_OPEN with
    | false =>
      rw [dispatch_blockOpen_next (blockOpen_invalid hv16),
          dispatch_close_next hstage]
      have htail := fromComment_no17 subScan hsub sub (top :: rest0)
        (⟨ws ++ c :: r, ws.length, ws.length, none⟩ : Lexer) valid
      exact ⟨htail.1, htail.2, hstage⟩
    | true =>
      rw [dispatch_blockOpen_next (blockOpen_pass hv16 (by rw [hskip, hsla]; simp [hcB])),
          hskip]
      have hb2 : ¬(top = CONTEXT_CSHARP_BRACE ∧
          (skipWsLoop (((⟨ws ++ c :: r, ws.length, ws.length, none⟩ : Lexer)).input.length + 1)
            (⟨ws ++ c :: r, ws.length, ws.length, none⟩ : Lexer)).lookahead = some rbrace) := by
        rw [hskip2, hsla]
        rintro ⟨h1, h2⟩
        exact hnb ⟨h1, by simpa using h2⟩
      have hp2 : ¬(top = CONTEXT_CSHARP_PAREN ∧
          (skipWsLoop (((⟨ws ++ c :: r, ws.length, ws.length, none⟩ : Lexer)).input.length + 1)
            (⟨ws ++ c :: r, ws.length, ws.length, none⟩ : Lexer)).lookahead = some ')') := by
        rw [hskip2, hsla]
        rintro ⟨h1, h2⟩
        exact hnp ⟨h1, by simpa using h2⟩
      rw [dispatch_close_next (@contextClose_mismatch valid top rest0
          (⟨ws ++ c :: r, ws.length, ws.length, none⟩ : Lexer) hv17 hb2 hp2), hskip2]
      have htail := fromComment_no17 subScan hsub sub (top :: rest0)
        (⟨ws ++ c :: r, ws.length, ws.length, none⟩ : Lexer) valid
      exact ⟨htail.1, htail.2, hstage⟩

theorem claimC3_witness :
    (razorScan declineSub () [CONTEXT_CSHARP_PAREN] (mkLexer ([' '] ++ rbrace :: ['x']))
        (fun _ => true)).1 ≠ some CSHARP_CONTEXT_CLOSE ∧
    (razorScan declineSub () [CONTEXT_CSHARP_PAREN] (mkLexer ([' '] ++ rbrace :: ['x']))
        (fun _ => true)).2.2.1 = [CONTEXT_CSHARP_PAREN] := by
  have h := (claimC3 declineSub (fun s l v k h => by simp [declineSub] at h) ()
    [CONTEXT_CSHARP_PAREN] [' '] ['x'] rbrace (fun _ => true) (by decide) (by decide)).2
    CONTEXT_CSHARP_PAREN [] rfl (Or.inl rfl) (by decide) (by decide) rfl
  exact ⟨h.1, h.2.1⟩

end Razor
